import Mathlib

/-!
The helium-client library: framed transport, transaction engine, channel commands.

A shallow embedding of `src/helium-client.c`.

* Bytes and C integers are natural numbers; every store into a `uint8_t`,
  `uint16_t` or `size_t` reduces modulo the width of the type.
* The serial port behind `ctx->param` is a value of type `Port`: a script of
  what the host will find on the receive side and a record of what it did on
  the transmit side.
* What `helium-client.h` and the schema codec declare (constants, the width
  of `size_t` and `int`, `encode_txn`, `decode_txn`) is not part of the
  source file and is taken as a parameter, the structure `Env`.
-/

namespace Helium

/-! ## The serial port -/

/-- One item of the receive script of the serial port. -/
inductive RxEv where
  /-- nothing is readable at this check: `helium_serial_readable` is false once -/
  | idle
  /-- a byte is waiting: readable, and `helium_serial_getc` delivers it -/
  | byte (b : Nat)
  /-- the port reports readable but `helium_serial_getc` fails -/
  | fail
  deriving DecidableEq

/-- State of the serial port reached through `ctx->param`. -/
structure Port where
  /-- what the receive side will deliver, in order; silent for ever once empty -/
  rx : List RxEv
  /-- outcome of the coming `helium_serial_putc` calls, in order; every call
  succeeds once the list is empty -/
  putc_ok : List Bool
  /-- bytes transmitted so far, oldest first -/
  tx : List Nat
  /-- arguments of the `helium_wait_us` calls so far, oldest first -/
  waits : List Nat
  deriving DecidableEq

/-- Modelled from the spec: `readable(handle)` of section 4.1, true iff a byte
may be consumed without blocking. A check that finds nothing uses up one
`idle` item of the script. -/
def helium_serial_readable (p : Port) : Bool × Port :=
  match p.rx with
  | [] => (false, p)
  | RxEv.idle :: rest => (false, { p with rx := rest })
  | _ :: _ => (true, p)

/-- Modelled from the spec: `getc(handle)` of section 4.1, consumes one byte
and yields nothing on hard error. -/
def helium_serial_getc (p : Port) : Option Nat × Port :=
  match p.rx with
  | RxEv.byte b :: rest => (some (b % 256), { p with rx := rest })
  | _ :: rest => (none, { p with rx := rest })
  | [] => (none, p)

/-- Modelled from the spec: `putc(handle, u8)` of section 4.1, transmits one
byte and is false on hard error. -/
def helium_serial_putc (p : Port) (ch : Nat) : Bool × Port :=
  match p.putc_ok with
  | false :: rest => (false, { p with putc_ok := rest })
  | true :: rest => (true, { p with putc_ok := rest, tx := p.tx ++ [ch % 256] })
  | [] => (true, { p with tx := p.tx ++ [ch % 256] })

/-- Modelled from the spec: `wait_us(handle, micros)` of section 4.1. -/
def helium_wait_us (p : Port) (us : Nat) : Port :=
  { p with waits := p.waits ++ [us] }

/-! ## Parameters -/

/-- Values of `txn.cmd.send.res` that `helium_send` switches on; the
enumeration is declared by the schema. -/
inductive res_send where
  | res_send_ok
  | res_send_err_not_connected
  | res_send_err_dropped
  | res_send_err_nack
  | res_send_err_channel_access
  deriving DecidableEq

/-- Tags of the command union `txn.cmd` that the source assigns; the
enumeration is declared by the schema. -/
inductive cmd_tag where
  | cmd_tag_baud
  | cmd_tag_info
  | cmd_tag_connected
  | cmd_tag_connect
  | cmd_tag_sleep
  | cmd_tag_send
  | cmd_tag_poll
  deriving DecidableEq

/-- Tag of the request/response union inside a command variant. -/
inductive req_res_tag where
  | req
  | res
  deriving DecidableEq

/-- Tags of `txn.cmd.poll.res` that `helium_poll` switches on; the
enumeration is declared by the schema. -/
inductive res_poll_tag where
  | res_poll_tag_none
  | res_poll_tag_frame
  deriving DecidableEq

/-- Modem baud rates `enum atom_baud`, declared by the schema. -/
inductive atom_baud where
  | atom_baud_b9600
  | atom_baud_b14400
  | atom_baud_b19200
  | atom_baud_b38400
  | atom_baud_b57600
  | atom_baud_b115200
  deriving DecidableEq

/-- Modelled from the spec: the connection descriptor `struct connection` of
the schema, which the source only copies; its content is a list of bytes. -/
structure connection where
  /-- Content of the descriptor -/
  raw : List Nat
  deriving DecidableEq

/-- Tags of `txn.cmd.sleep.res` that `helium_sleep` switches on, declared by
the schema, and `unrecognized` for a tag value that is none of the three. -/
inductive res_sleep_tag where
  | res_sleep_tag_not_connected
  | res_sleep_tag_keep_awake
  | res_sleep_tag_connection
  | unrecognized (n : Nat)
  deriving DecidableEq

/-- Modelled from the spec: the transaction record `struct txn` of the
external schema (section 3), with one field for each member that the embedded
functions read or write. A vector member (`_length` and `elems`) is the list
of its first `_length` elements. -/
structure txn where
  /-- Member `txn.seq` -/
  seq : Nat
  /-- Member `txn.needs_reset` -/
  needs_reset : Bool
  /-- Member `txn.cmd._tag` -/
  cmd_tag : cmd_tag
  /-- Member `txn.cmd.send._tag` -/
  send_tag : req_res_tag
  /-- Member `txn.cmd.send.req` -/
  send_req : List Nat
  /-- Member `txn.cmd.send.res` -/
  send_res : res_send
  /-- Member `txn.cmd.poll._tag` -/
  poll_tag : req_res_tag
  /-- Member `txn.cmd.poll.res._tag` -/
  poll_res_tag : res_poll_tag
  /-- Member `txn.cmd.poll.res.frame` -/
  poll_res_frame : List Nat
  /-- Member `txn.cmd.baud._tag` -/
  baud_tag : req_res_tag := req_res_tag.req
  /-- Member `txn.cmd.baud.req` -/
  baud_req : atom_baud := atom_baud.atom_baud_b9600
  /-- Member `txn.cmd.sleep._tag` -/
  sleep_tag : req_res_tag := req_res_tag.req
  /-- Member `txn.cmd.sleep.res._tag` -/
  sleep_res_tag : res_sleep_tag := res_sleep_tag.res_sleep_tag_not_connected
  /-- Member `txn.cmd.sleep.res.connection` -/
  sleep_res_connection : connection := { raw := [] }
  deriving DecidableEq

/-- What the source takes from `helium-client.h`, from the schema codec and
from the C platform. -/
structure Env where
  /-- width of `size_t` in bits -/
  size_bits : Nat
  /-- width of `int` in bits -/
  int_bits : Nat
  /-- Value of `sizeof(ctx->buf)` -/
  BUF_SIZE : Nat
  /-- Constant `VECTOR_MAX_LEN_frame_app` -/
  VECTOR_MAX_LEN_frame_app : Nat
  /-- Constant `HELIUM_MAX_DATA_SIZE` -/
  HELIUM_MAX_DATA_SIZE : Nat
  /-- Constant `HELIUM_MAX_CHANNEL_NAME_SIZE` -/
  HELIUM_MAX_CHANNEL_NAME_SIZE : Nat
  /-- Function `encode_txn` into a buffer of the given size: the encoded bytes
  (`ei.position` is their number), or nothing when the status is not
  `caut_status_ok` -/
  encode_txn : Nat → txn → Option (List Nat)
  /-- Function `decode_txn` of the given bytes into the given record: whether the
  status is `caut_status_ok`, and the record as the decoder leaves it -/
  decode_txn : List Nat → txn → Bool × txn

/-- The `size_t` value of the `int` constant `-n`. -/
def size_t_neg (k : Env) (n : Nat) : Nat :=
  (2 ^ k.size_bits - n % 2 ^ k.size_bits) % 2 ^ k.size_bits

/-- The value of `(int)n` for a `size_t` value `n`. -/
def to_int (k : Env) (n : Nat) : Int :=
  if n % 2 ^ k.int_bits < 2 ^ (k.int_bits - 1) then
    ((n % 2 ^ k.int_bits : Nat) : Int)
  else
    ((n % 2 ^ k.int_bits : Nat) : Int) - ((2 ^ k.int_bits : Nat) : Int)

/-- The value of `(int8_t)b` for a byte `b`. -/
def to_int8 (b : Nat) : Int :=
  if b % 256 < 128 then ((b % 256 : Nat) : Int) else ((b % 256 : Nat) : Int) - 256

/-- The value of `(uint8_t)i` for an integer `i`. -/
def to_uint8 (i : Int) : Nat :=
  (i % 256).toNat

/-! ## Frame codec -/

/-- Start-of-frame character. -/
def SOF_CHAR : Nat := 0x7E

/-- States of the frame reader. -/
inductive decode_state where
  | sof
  | len_msb
  | len_lsb
  | payload
  | checksum
  deriving DecidableEq

/-- Number of readable checks (the source comments it as a 1 second timeout). -/
def SERIAL_WAIT_TIMEOUT : Nat := 2000

/-- Function `_wait_for_byte(ctx, timeout)`: the loop `while (timeout--)`. -/
def _wait_for_byte (p : Port) : Nat → Bool × Port
  | 0 => (false, p)
  | timeout + 1 =>
    match helium_serial_readable p with
    | (true, p1) => (true, p1)
    | (false, p1) => _wait_for_byte (helium_wait_us p1 500) timeout

/-- Local variables of `_read_frame`. `frame` holds the bytes stored through
`*frame++` so far: the store number `i` goes to index `i` of the caller's
buffer. -/
structure ReadSt where
  state : decode_state
  payload_size : Nat
  payload_checksum : Nat
  len : Nat
  frame : List Nat
  deriving DecidableEq

/-- What `_read_frame` leaves: the returned `size_t`, the port, and the bytes
stored into the caller's buffer from its start. -/
structure ReadResult where
  ret : Nat
  port : Port
  frame : List Nat
  deriving DecidableEq

/-- The loop of `_read_frame`; the first argument bounds the number of
iterations. -/
def _read_frame_loop (k : Env) : Nat → Port → ReadSt → Option ReadResult
  | 0, _, _ => none
  | fuel + 1, p, s =>
    match _wait_for_byte p SERIAL_WAIT_TIMEOUT with
    | (false, p1) =>
      -- Timeout error
      some ⟨0, p1, s.frame⟩
    | (true, p1) =>
      match helium_serial_getc p1 with
      | (none, p2) =>
        -- Error reading
        some ⟨size_t_neg k 3, p2, s.frame⟩
      | (some ch, p2) =>
        match s.state with
        | decode_state.sof =>
          if ch = SOF_CHAR then
            _read_frame_loop k fuel p2 { s with state := decode_state.len_msb }
          else
            _read_frame_loop k fuel p2 s
        | decode_state.len_msb =>
          _read_frame_loop k fuel p2
            { s with payload_size := ch * 2 ^ 8, state := decode_state.len_lsb }
        | decode_state.len_lsb =>
          let payload_size := s.payload_size + ch
          if payload_size > s.len then
            -- Overflow error
            some ⟨size_t_neg k 1, p2, s.frame⟩
          else
            _read_frame_loop k fuel p2
              { s with payload_size := payload_size, len := payload_size,
                       state := decode_state.payload }
        | decode_state.payload =>
          let frame := s.frame ++ [ch]
          let payload_checksum := (s.payload_checksum + ch) % 256
          let len := (s.len + 2 ^ k.size_bits - 1) % 2 ^ k.size_bits
          if len = 0 then
            _read_frame_loop k fuel p2
              { s with frame := frame, payload_checksum := 0xFF - payload_checksum,
                       len := len, state := decode_state.checksum }
          else
            _read_frame_loop k fuel p2
              { s with frame := frame, payload_checksum := payload_checksum, len := len }
        | decode_state.checksum =>
          if ch = s.payload_checksum then
            some ⟨s.payload_size, p2, s.frame⟩
          else
            -- Checksum error
            some ⟨size_t_neg k 2, p2, s.frame⟩

/-- Function `_read_frame(ctx, frame, len)`. Every iteration of the loop that does not
return consumes one item of the receive script, so one more iteration than the
script has items is enough (`read_frame_total`). -/
def _read_frame (k : Env) (p : Port) (len : Nat) : Option ReadResult :=
  _read_frame_loop k (p.rx.length + 1) p
    { state := decode_state.sof, payload_size := 0, payload_checksum := 0,
      len := len, frame := [] }

/-- The `switch (state)` of `_read_frame` for the byte `ch`, on its own: the
next values of the local variables, or the value that the function returns.
The loop `_read_frame_loop` runs it on every byte (`read_loop_unfold`). -/
def read_switch (k : Env) (s : ReadSt) (ch : Nat) : ReadSt ⊕ Nat :=
  match s.state with
  | decode_state.sof =>
    if ch = SOF_CHAR then Sum.inl { s with state := decode_state.len_msb } else Sum.inl s
  | decode_state.len_msb =>
    Sum.inl { s with payload_size := ch * 2 ^ 8, state := decode_state.len_lsb }
  | decode_state.len_lsb =>
    if s.payload_size + ch > s.len then
      Sum.inr (size_t_neg k 1)
    else
      Sum.inl { s with payload_size := s.payload_size + ch, len := s.payload_size + ch,
                       state := decode_state.payload }
  | decode_state.payload =>
    if (s.len + 2 ^ k.size_bits - 1) % 2 ^ k.size_bits = 0 then
      Sum.inl { s with frame := s.frame ++ [ch],
                       payload_checksum := 0xFF - (s.payload_checksum + ch) % 256,
                       len := (s.len + 2 ^ k.size_bits - 1) % 2 ^ k.size_bits,
                       state := decode_state.checksum }
    else
      Sum.inl { s with frame := s.frame ++ [ch],
                       payload_checksum := (s.payload_checksum + ch) % 256,
                       len := (s.len + 2 ^ k.size_bits - 1) % 2 ^ k.size_bits }
  | decode_state.checksum =>
    if ch = s.payload_checksum then Sum.inr s.payload_size else Sum.inr (size_t_neg k 2)

/-- The `while (len--)` loop of `_write_frame` and what follows it; the list
is what `frame` still points to, its length the current `len`. -/
def _write_frame_loop (k : Env) : List Nat → Port → Nat → Nat → Nat × Port
  | [], p, written, checksum =>
    let checksum := 0xFF - checksum
    match helium_serial_putc p checksum with
    | (false, p1) => (size_t_neg k 1, p1)
    | (true, p1) => (written, p1)
  | b :: frame, p, written, checksum =>
    let ch := to_int8 b
    match helium_serial_putc p (to_uint8 ch) with
    | (false, p1) => (size_t_neg k 1, p1)
    | (true, p1) =>
      _write_frame_loop k frame p1 (written + 1) (to_uint8 ((checksum : Int) + ch))

/-- Function `_write_frame(ctx, frame, len)`: the list is the `len` bytes at `frame`. -/
def _write_frame (k : Env) (p : Port) (frame : List Nat) : Nat × Port :=
  if frame.length = 0 then
    (0, p)
  else
    match helium_serial_putc p SOF_CHAR with
    | (false, p1) => (size_t_neg k 1, p1)
    | (true, p1) =>
      match helium_serial_putc p1 (frame.length / 2 ^ 8) with
      | (false, p2) => (size_t_neg k 1, p2)
      | (true, p2) =>
        match helium_serial_putc p2 (frame.length % 256) with
        | (false, p3) => (size_t_neg k 1, p3)
        | (true, p3) => _write_frame_loop k frame p3 0 0

/-! ## Transaction engine -/

/-- Modelled from the spec: the session context `struct helium_ctx` of
`helium-client.h` (section 3). The scratch buffer `buf` is not a field: every
function that reads it has filled it first, so its bytes are passed as values
and only its size `sizeof(ctx->buf)` is kept, in `Env`. -/
structure helium_ctx where
  /-- Field `param`: the serial port -/
  param : Port
  /-- Field `txn_seq`, a 16-bit counter -/
  txn_seq : Nat
  /-- Field `txn`, the scratch transaction record -/
  txn : txn
  deriving DecidableEq

/-- Results of `send_command`. -/
inductive send_command_status where
  | send_command_OK
  | send_command_ERR_ENCODE
  | send_command_ERR_DECODE
  | send_command_ERR_COMMUNICATION
  deriving DecidableEq

/-- The first two statements of `send_command`:
`uint16_t seq = ctx->txn_seq++; ctx->txn.seq = seq;`. The record of the
result is the one handed to `encode_txn`. -/
def send_command_seq (ctx : helium_ctx) : helium_ctx :=
  { ctx with txn_seq := (ctx.txn_seq + 1) % 65536,
             txn := { ctx.txn with seq := ctx.txn_seq % 65536 } }

/-- Function `send_command(ctx)`. -/
def send_command (k : Env) (ctx0 : helium_ctx) : send_command_status × helium_ctx :=
  let ctx := send_command_seq ctx0
  match k.encode_txn k.BUF_SIZE ctx.txn with
  | none => (send_command_status.send_command_ERR_ENCODE, ctx)
  | some encoded =>
    match _write_frame k ctx.param encoded with
    | (len, p1) =>
      if len ≠ encoded.length then
        (send_command_status.send_command_ERR_COMMUNICATION, { ctx with param := p1 })
      else
        match _read_frame k p1 k.BUF_SIZE with
        | none =>
          -- not reached, see `read_frame_total`
          (send_command_status.send_command_ERR_COMMUNICATION, { ctx with param := p1 })
        | some r =>
          if to_int k r.ret ≤ 0 then
            (send_command_status.send_command_ERR_COMMUNICATION, { ctx with param := r.port })
          else
            match k.decode_txn (r.frame.take r.ret) ctx.txn with
            | (false, t) =>
              (send_command_status.send_command_ERR_DECODE, { ctx with param := r.port, txn := t })
            | (true, t) =>
              (send_command_status.send_command_OK, { ctx with param := r.port, txn := t })

/-! ## Command layer: send and poll -/

/-- Results of `helium_send`. -/
inductive helium_send_status where
  | helium_send_OK
  | helium_send_ERR_NOT_CONNECTED
  | helium_send_ERR_DROPPED
  | helium_send_ERR_COMMUNICATION
  deriving DecidableEq

/-- The part of `helium_send` before its retry loop: it fills the scratch
record with the send request. `data` is `none` for a null pointer and
otherwise the bytes it points to, at least `len` of them. -/
def helium_send_request (k : Env) (ctx : helium_ctx) (data : Option (List Nat))
    (len : Nat) : helium_ctx :=
  let copylen := if data.isSome then len else 0
  let copylen := if copylen > k.VECTOR_MAX_LEN_frame_app then k.VECTOR_MAX_LEN_frame_app
                 else copylen
  let req := match data with
    | some d => d.take copylen
    | none => []
  { ctx with txn := { ctx.txn with cmd_tag := cmd_tag.cmd_tag_send,
                                   send_tag := req_res_tag.req,
                                   send_req := req } }

/-- The retry loop `while (retries-- > 0)` of `helium_send` and the return
that follows it. -/
def helium_send_loop (k : Env) : Nat → helium_ctx → helium_send_status × helium_ctx
  | 0, ctx => (helium_send_status.helium_send_ERR_COMMUNICATION, ctx)
  | retries + 1, ctx =>
    match send_command k ctx with
    | (status, ctx1) =>
      if status ≠ send_command_status.send_command_OK then
        (helium_send_status.helium_send_ERR_COMMUNICATION, ctx1)
      else
        match ctx1.txn.send_res with
        | res_send.res_send_ok => (helium_send_status.helium_send_OK, ctx1)
        | res_send.res_send_err_not_connected =>
          (helium_send_status.helium_send_ERR_NOT_CONNECTED, ctx1)
        | res_send.res_send_err_dropped =>
          (helium_send_status.helium_send_ERR_DROPPED, ctx1)
        | res_send.res_send_err_nack => helium_send_loop k retries ctx1
        | res_send.res_send_err_channel_access => helium_send_loop k retries ctx1

/-- Function `helium_send(ctx, data, len)`. -/
def helium_send (k : Env) (ctx : helium_ctx) (data : Option (List Nat)) (len : Nat) :
    helium_send_status × helium_ctx :=
  helium_send_loop k 3 (helium_send_request k ctx data len)

/-- Results of `helium_poll`. -/
inductive helium_poll_status where
  | helium_poll_OK_DATA
  | helium_poll_OK_NO_DATA
  | helium_poll_ERR_COMMUNICATION
  deriving DecidableEq

/-- Wait between two poll attempts, in microseconds. -/
def HELIUM_POLL_WAIT_US : Nat := 500000

/-- Number of poll attempts that make up 60 seconds. -/
def HELIUM_POLL_RETRIES_60S : Nat := (1000000 / HELIUM_POLL_WAIT_US) * 60

/-- What `helium_poll` leaves: its status, the caller's buffer `data` and
the caller's `used` (each `none` for a null pointer), and the context. -/
structure PollResult where
  status : helium_poll_status
  data : Option (List Nat)
  used : Option Nat
  ctx : helium_ctx
  deriving DecidableEq

/-- The loop `while (retries-- > 0)` of `helium_poll` and the return that
follows it. -/
def helium_poll_loop (k : Env) (data : Option (List Nat)) (len : Nat) (used : Option Nat) :
    Nat → helium_ctx → PollResult
  | 0, ctx => ⟨helium_poll_status.helium_poll_OK_NO_DATA, data, used, ctx⟩
  | retries + 1, ctx =>
    match send_command k ctx with
    | (status, ctx1) =>
      if status ≠ send_command_status.send_command_OK then
        ⟨helium_poll_status.helium_poll_ERR_COMMUNICATION, data, used, ctx1⟩
      else
        match ctx1.txn.poll_res_tag with
        | res_poll_tag.res_poll_tag_frame =>
          let copylen := ctx1.txn.poll_res_frame.length
          let copylen := if copylen > len then len else copylen
          ⟨helium_poll_status.helium_poll_OK_DATA,
            data.map (fun d => ctx1.txn.poll_res_frame.take copylen ++ d.drop copylen),
            used.map (fun _ => copylen), ctx1⟩
        | res_poll_tag.res_poll_tag_none =>
          if retries > 0 then
            helium_poll_loop k data len used retries
              { ctx1 with param := helium_wait_us ctx1.param HELIUM_POLL_WAIT_US }
          else
            helium_poll_loop k data len used retries ctx1

/-- The two assignments at the start of `helium_poll`. -/
def helium_poll_request (ctx : helium_ctx) : helium_ctx :=
  { ctx with txn := { ctx.txn with cmd_tag := cmd_tag.cmd_tag_poll,
                                   poll_tag := req_res_tag.req } }

/-- Function `helium_poll(ctx, data, len, used, retries)`. -/
def helium_poll (k : Env) (ctx : helium_ctx) (data : Option (List Nat)) (len : Nat)
    (used : Option Nat) (retries : Nat) : PollResult :=
  helium_poll_loop k data len used retries (helium_poll_request ctx)

/-! ## Command layer: baud and sleep -/

/-- Host baud rates `enum helium_baud` of `helium-client.h`, and
`unrecognized` for a value that is none of the six enumerators. -/
inductive enum_helium_baud where
  | helium_baud_b9600
  | helium_baud_b14400
  | helium_baud_b19200
  | helium_baud_b38400
  | helium_baud_b57600
  | helium_baud_b115200
  | unrecognized (n : Nat)
  deriving DecidableEq

/-- The two values of `enum helium_info_status` that the source returns from
`helium_baud`. -/
inductive helium_info_status where
  | helium_info_OK
  | helium_info_ERR_COMMUNICATION
  deriving DecidableEq

/-- The part of `helium_baud` before its call of `send_command`: it fills the
scratch record with the baud request. -/
def helium_baud_request (ctx : helium_ctx) (baud : enum_helium_baud) : helium_ctx :=
  let atom_baud :=
    match baud with
    | enum_helium_baud.helium_baud_b115200 => atom_baud.atom_baud_b115200
    | enum_helium_baud.helium_baud_b57600 => atom_baud.atom_baud_b57600
    | enum_helium_baud.helium_baud_b38400 => atom_baud.atom_baud_b38400
    | enum_helium_baud.helium_baud_b19200 => atom_baud.atom_baud_b19200
    | enum_helium_baud.helium_baud_b14400 => atom_baud.atom_baud_b14400
    | enum_helium_baud.helium_baud_b9600 => atom_baud.atom_baud_b9600
    | enum_helium_baud.unrecognized _ => atom_baud.atom_baud_b9600
  { ctx with txn := { ctx.txn with cmd_tag := cmd_tag.cmd_tag_baud,
                                   baud_tag := req_res_tag.req,
                                   baud_req := atom_baud } }

/-- Function `helium_baud(ctx, baud)`. -/
def helium_baud (k : Env) (ctx : helium_ctx) (baud : enum_helium_baud) :
    helium_info_status × helium_ctx :=
  match send_command k (helium_baud_request ctx baud) with
  | (status, ctx1) =>
    if send_command_status.send_command_OK ≠ status then
      (helium_info_status.helium_info_ERR_COMMUNICATION, ctx1)
    else
      (helium_info_status.helium_info_OK, ctx1)

/-- Results of `helium_sleep`, declared in `helium-client.h`. -/
inductive helium_sleep_status where
  | helium_sleep_OK
  | helium_sleep_ERR_NOT_CONNECTED
  | helium_sleep_ERR_KEEP_AWAKE
  | helium_sleep_ERR_COMMUNICATION
  deriving DecidableEq

/-- The two assignments at the start of `helium_sleep`. -/
def helium_sleep_request (ctx : helium_ctx) : helium_ctx :=
  { ctx with txn := { ctx.txn with cmd_tag := cmd_tag.cmd_tag_sleep,
                                   sleep_tag := req_res_tag.req } }

/-- Function `helium_sleep(ctx, connection)`; `connection` is `none` for a null
pointer, and the second component of the result is `*connection` on return. -/
def helium_sleep (k : Env) (ctx : helium_ctx) (connection : Option Helium.connection) :
    helium_sleep_status × Option Helium.connection × helium_ctx :=
  match send_command k (helium_sleep_request ctx) with
  | (status, ctx1) =>
    if send_command_status.send_command_OK ≠ status then
      (helium_sleep_status.helium_sleep_ERR_COMMUNICATION, connection, ctx1)
    else
      match ctx1.txn.sleep_res_tag with
      | res_sleep_tag.res_sleep_tag_not_connected =>
        (helium_sleep_status.helium_sleep_ERR_NOT_CONNECTED, connection, ctx1)
      | res_sleep_tag.res_sleep_tag_keep_awake =>
        (helium_sleep_status.helium_sleep_ERR_KEEP_AWAKE, connection, ctx1)
      | res_sleep_tag.res_sleep_tag_connection =>
        (helium_sleep_status.helium_sleep_OK,
          connection.map (fun _ => ctx1.txn.sleep_res_connection), ctx1)
      | res_sleep_tag.unrecognized _ =>
        (helium_sleep_status.helium_sleep_ERR_COMMUNICATION, connection, ctx1)

/-! ## Channel sub-protocol -/

/-- Opcode of the create request. -/
def CHANNEL_CREATE : Nat := 0x8b

/-- Opcode of the response to a successful create. -/
def CHANNEL_CREATED : Nat := 0x8d

/-- Opcode of the response to a failed create. -/
def CHANNEL_CREATE_FAILED : Nat := 0x8e

/-- Results of `helium_channel_create`, declared in `helium-client.h`. -/
inductive helium_channel_create_status where
  | helium_channel_create_OK
  | helium_channel_create_ERR_NOT_CONNECTED
  | helium_channel_create_ERR_DROPPED
  | helium_channel_create_ERR_COMMUNICATION
  | helium_channel_create_ERR_TIMEOUT
  | helium_channel_create_ERR_FAILED
  deriving DecidableEq

/-- The statements of `helium_channel_create` before its call of
`helium_send`: the bytes laid out at `ctx->buf` and their number
`frame - ctx->buf`, the two arguments of that call. `name` is the bytes that
the parameter `name` points to, at least `len` of them. -/
def helium_channel_create_payload (k : Env) (name : List Nat) (len : Nat) : List Nat × Nat :=
  let len := if len > k.HELIUM_MAX_CHANNEL_NAME_SIZE then k.HELIUM_MAX_CHANNEL_NAME_SIZE
             else len
  (CHANNEL_CREATE :: name.take len, 1 + len)

/-- Function `helium_channel_create(ctx, name, len, channel_id)`; the second
component of the result is `*channel_id` on return. After the poll only the
first `used` bytes of the buffer are read, and the poll has just written
them. -/
def helium_channel_create (k : Env) (ctx : helium_ctx) (name : List Nat) (len : Nat)
    (channel_id : Nat) : helium_channel_create_status × Nat × helium_ctx :=
  let buf := helium_channel_create_payload k name len
  match helium_send k ctx (some buf.1) buf.2 with
  | (helium_send_status.helium_send_ERR_NOT_CONNECTED, c) =>
    (helium_channel_create_status.helium_channel_create_ERR_NOT_CONNECTED, channel_id, c)
  | (helium_send_status.helium_send_ERR_DROPPED, c) =>
    (helium_channel_create_status.helium_channel_create_ERR_DROPPED, channel_id, c)
  | (helium_send_status.helium_send_ERR_COMMUNICATION, c) =>
    (helium_channel_create_status.helium_channel_create_ERR_COMMUNICATION, channel_id, c)
  | (helium_send_status.helium_send_OK, c) =>
    -- Now receive
    match helium_poll k c (some buf.1) k.HELIUM_MAX_DATA_SIZE (some 0)
        HELIUM_POLL_RETRIES_60S with
    | ⟨helium_poll_status.helium_poll_OK_NO_DATA, _, _, c1⟩ =>
      (helium_channel_create_status.helium_channel_create_ERR_TIMEOUT, channel_id, c1)
    | ⟨helium_poll_status.helium_poll_ERR_COMMUNICATION, _, _, c1⟩ =>
      (helium_channel_create_status.helium_channel_create_ERR_COMMUNICATION, channel_id, c1)
    | ⟨helium_poll_status.helium_poll_OK_DATA, frame, used, c1⟩ =>
      if used.getD 0 < 1 then
        (helium_channel_create_status.helium_channel_create_ERR_COMMUNICATION, channel_id, c1)
      else if (frame.getD []).getD 0 0 = CHANNEL_CREATED then
        if used.getD 0 ≠ 2 then
          (helium_channel_create_status.helium_channel_create_ERR_COMMUNICATION, channel_id, c1)
        else
          (helium_channel_create_status.helium_channel_create_OK, (frame.getD []).getD 1 0, c1)
      else if (frame.getD []).getD 0 0 = CHANNEL_CREATE_FAILED then
        (helium_channel_create_status.helium_channel_create_ERR_FAILED, channel_id, c1)
      else
        (helium_channel_create_status.helium_channel_create_ERR_COMMUNICATION, channel_id, c1)

/-- Opcode of the channel send request. -/
def CHANNEL_SEND : Nat := 0x8c

/-- Opcode of the response that carries the send result. -/
def CHANNEL_SEND_RESULT : Nat := 0x90

/-- Opcode of the response for an unknown channel. -/
def CHANNEL_NOT_FOUND : Nat := 0x8f

/-- Results of `helium_channel_send`, declared in `helium-client.h`. -/
inductive helium_channel_send_status where
  | helium_channel_send_OK
  | helium_channel_send_ERR_NOT_CONNECTED
  | helium_channel_send_ERR_DROPPED
  | helium_channel_send_ERR_COMMUNICATION
  | helium_channel_send_ERR_NOT_FOUND
  | helium_channel_send_ERR_TIMEOUT
  deriving DecidableEq

/-- The statements of `helium_channel_send` before its call of `helium_send`:
the bytes laid out at `ctx->buf` and their number `frame - ctx->buf`, the two
arguments of that call. `data` is the bytes that the parameter `data` points
to, at least `len` of them. -/
def helium_channel_send_payload (k : Env) (channel_id : Nat) (data : List Nat) (len : Nat) :
    List Nat × Nat :=
  let len := if len > k.HELIUM_MAX_DATA_SIZE then k.HELIUM_MAX_DATA_SIZE else len
  (CHANNEL_SEND :: channel_id :: 0 :: data.take len, 3 + len)

/-- Function `helium_channel_send(ctx, channel_id, data, len, result)`;
`result` is `none` for a null pointer, and the second component of the
result is `*result` on return. After the poll only the first `used` bytes of
the buffer are read, and the poll has just written them. -/
def helium_channel_send (k : Env) (ctx : helium_ctx) (channel_id : Nat) (data : List Nat)
    (len : Nat) (result : Option Nat) :
    helium_channel_send_status × Option Nat × helium_ctx :=
  let buf := helium_channel_send_payload k channel_id data len
  match helium_send k ctx (some buf.1) buf.2 with
  | (helium_send_status.helium_send_ERR_NOT_CONNECTED, c) =>
    (helium_channel_send_status.helium_channel_send_ERR_NOT_CONNECTED, result, c)
  | (helium_send_status.helium_send_ERR_DROPPED, c) =>
    (helium_channel_send_status.helium_channel_send_ERR_DROPPED, result, c)
  | (helium_send_status.helium_send_ERR_COMMUNICATION, c) =>
    (helium_channel_send_status.helium_channel_send_ERR_COMMUNICATION, result, c)
  | (helium_send_status.helium_send_OK, c) =>
    -- Now receive
    match helium_poll k c (some buf.1) k.HELIUM_MAX_DATA_SIZE (some 0)
        HELIUM_POLL_RETRIES_60S with
    | ⟨helium_poll_status.helium_poll_OK_NO_DATA, _, _, c1⟩ =>
      (helium_channel_send_status.helium_channel_send_ERR_TIMEOUT, result, c1)
    | ⟨helium_poll_status.helium_poll_ERR_COMMUNICATION, _, _, c1⟩ =>
      (helium_channel_send_status.helium_channel_send_ERR_COMMUNICATION, result, c1)
    | ⟨helium_poll_status.helium_poll_OK_DATA, frame, used, c1⟩ =>
      if used.getD 0 < 1 then
        (helium_channel_send_status.helium_channel_send_ERR_COMMUNICATION, result, c1)
      else if (frame.getD []).getD 0 0 = CHANNEL_SEND_RESULT then
        if used.getD 0 ≠ 2 then
          (helium_channel_send_status.helium_channel_send_ERR_COMMUNICATION, result, c1)
        else
          (helium_channel_send_status.helium_channel_send_OK,
            result.map (fun _ => (frame.getD []).getD 1 0), c1)
      else if (frame.getD []).getD 0 0 = CHANNEL_NOT_FOUND then
        (helium_channel_send_status.helium_channel_send_ERR_NOT_FOUND, result, c1)
      else
        (helium_channel_send_status.helium_channel_send_ERR_COMMUNICATION, result, c1)

/-! ## Runs of the transaction engine -/

/-- The context right before call number `n` (counted from 0) of
`send_command` in a run on the context `c0`, when the command layer applies
`edit i` to the context before call number `i`. -/
def before_call (k : Env) (edit : Nat → helium_ctx → helium_ctx) (c0 : helium_ctx) :
    Nat → helium_ctx
  | 0 => edit 0 c0
  | n + 1 => edit (n + 1) (send_command k (before_call k edit c0 n)).2

/-- One round of the loop of `helium_poll` that goes on to the next attempt:
the `send_command` round trip, then the wait between attempts. -/
def poll_round (k : Env) (c : helium_ctx) : helium_ctx :=
  { (send_command k c).2 with
      param := helium_wait_us (send_command k c).2.param HELIUM_POLL_WAIT_US }

/-! ## Concrete inputs -/

/-- A receive script that delivers the given bytes back to back. -/
def rx_bytes (bs : List Nat) : List RxEv :=
  bs.map RxEv.byte

/-- A port with the given receive script and nothing done yet. -/
def port_rx (rx : List RxEv) : Port :=
  { rx := rx, putc_ok := [], tx := [], waits := [] }

/-- A small encoder for running the functions on concrete input: the
sequence number, then one byte for the command. -/
def demo_encode_txn (_cap : Nat) (t : txn) : Option (List Nat) :=
  some [t.seq / 256, t.seq % 256,
    match t.cmd_tag with
    | cmd_tag.cmd_tag_send => 6
    | cmd_tag.cmd_tag_poll => 7
    | cmd_tag.cmd_tag_sleep => 5
    | cmd_tag.cmd_tag_baud => 1
    | _ => 0]

/-- A small decoder for running the functions on concrete input. The first
byte selects the response: `6` a send result coded by the second byte, `7` a
poll response that is `none` when nothing follows and the frame that follows
otherwise, `5` a sleep response (`0` not connected, `1` keep awake, `2` and a
connection descriptor, any other byte an unrecognized tag), `1` the response
to a baud request. -/
def demo_decode_txn (bytes : List Nat) (t : txn) : Bool × txn :=
  match bytes with
  | [6, r] =>
    (true, { t with cmd_tag := cmd_tag.cmd_tag_send, send_tag := req_res_tag.res,
                    send_res :=
                      match r with
                      | 0 => res_send.res_send_ok
                      | 1 => res_send.res_send_err_not_connected
                      | 2 => res_send.res_send_err_dropped
                      | 3 => res_send.res_send_err_nack
                      | _ => res_send.res_send_err_channel_access })
  | [7] =>
    (true, { t with cmd_tag := cmd_tag.cmd_tag_poll, poll_tag := req_res_tag.res,
                    poll_res_tag := res_poll_tag.res_poll_tag_none })
  | 7 :: b :: body =>
    (true, { t with cmd_tag := cmd_tag.cmd_tag_poll, poll_tag := req_res_tag.res,
                    poll_res_tag := res_poll_tag.res_poll_tag_frame,
                    poll_res_frame := b :: body })
  | [5, 0] =>
    (true, { t with cmd_tag := cmd_tag.cmd_tag_sleep, sleep_tag := req_res_tag.res,
                    sleep_res_tag := res_sleep_tag.res_sleep_tag_not_connected })
  | [5, 1] =>
    (true, { t with cmd_tag := cmd_tag.cmd_tag_sleep, sleep_tag := req_res_tag.res,
                    sleep_res_tag := res_sleep_tag.res_sleep_tag_keep_awake })
  | 5 :: 2 :: body =>
    (true, { t with cmd_tag := cmd_tag.cmd_tag_sleep, sleep_tag := req_res_tag.res,
                    sleep_res_tag := res_sleep_tag.res_sleep_tag_connection,
                    sleep_res_connection := { raw := body } })
  | [5, n] =>
    (true, { t with cmd_tag := cmd_tag.cmd_tag_sleep, sleep_tag := req_res_tag.res,
                    sleep_res_tag := res_sleep_tag.unrecognized n })
  | [1] =>
    (true, { t with cmd_tag := cmd_tag.cmd_tag_baud, baud_tag := req_res_tag.res })
  | _ => (false, t)

/-- A platform with 64-bit `size_t` and 32-bit `int`, a 64-byte buffer and
the small codec. -/
def env64 : Env :=
  { size_bits := 64, int_bits := 32, BUF_SIZE := 64, VECTOR_MAX_LEN_frame_app := 32,
    HELIUM_MAX_DATA_SIZE := 29, HELIUM_MAX_CHANNEL_NAME_SIZE := 31,
    encode_txn := demo_encode_txn, decode_txn := demo_decode_txn }

/-- A transaction record with every field cleared, as `helium_init` leaves it. -/
def txn_zero : txn :=
  { seq := 0, needs_reset := false, cmd_tag := cmd_tag.cmd_tag_baud,
    send_tag := req_res_tag.req, send_req := [], send_res := res_send.res_send_ok,
    poll_tag := req_res_tag.req, poll_res_tag := res_poll_tag.res_poll_tag_none,
    poll_res_frame := [] }

/-- The context that `helium_init` leaves, on the given port. -/
def ctx_init (p : Port) : helium_ctx :=
  { param := p, txn_seq := 0, txn := txn_zero }


/-- A session whose modem answers three send requests with NACK,
CHANNEL_ACCESS and NACK (frames of the small codec). -/
def ctx_nack3 : helium_ctx :=
  ctx_init (port_rx (rx_bytes [0x7E, 0, 2, 6, 3, 0xF6, 0x7E, 0, 2, 6, 4, 0xF5,
    0x7E, 0, 2, 6, 3, 0xF6]))

/-- A session whose modem answers the first send request with DROPPED and
would answer a second one with OK. -/
def ctx_dropped : helium_ctx :=
  ctx_init (port_rx (rx_bytes [0x7E, 0, 2, 6, 2, 0xF7, 0x7E, 0, 2, 6, 0, 0xF9]))

/-- A session whose modem answers a send request with OK and the first poll
request with a frame whose body is the given bytes (at least one, at most 250
in sum so that the checksum byte below is right). -/
def ctx_poll_body (body : List Nat) : helium_ctx :=
  ctx_init (port_rx (rx_bytes ([0x7E, 0, 2, 6, 0, 0xF9]
    ++ [0x7E, 0, 1 + body.length, 7] ++ body ++ [0xFF - (7 + body.sum) % 256])))

/-- A session whose modem answers a send request with OK and then 120 poll
requests with `none`. -/
def ctx_silent : helium_ctx :=
  ctx_init (port_rx (rx_bytes ([0x7E, 0, 2, 6, 0, 0xF9]
    ++ (List.replicate 120 [0x7E, 0, 1, 7, 0xF8]).flatten)))

/-! ## The serial port: basic facts -/

theorem to_uint8_to_int8 (b : Nat) : to_uint8 (to_int8 b) = b % 256 := by
  unfold to_uint8 to_int8
  split <;> omega

theorem to_uint8_add_to_int8 (c b : Nat) : to_uint8 ((c : Int) + to_int8 b) = (c + b) % 256 := by
  unfold to_uint8 to_int8
  split <;> omega

theorem putc_of_all_ok (p : Port) (ch : Nat) (h : ∀ b ∈ p.putc_ok, b = true) :
    helium_serial_putc p ch
      = (true, { p with putc_ok := p.putc_ok.drop 1, tx := p.tx ++ [ch % 256] }) := by
  unfold helium_serial_putc
  rcases hp : p.putc_ok with _ | ⟨b, rest⟩
  · simp
  · have hb : b = true := h b (by simp [hp])
    subst hb
    simp


/-! ## Frame writer -/

theorem write_frame_loop_ok (k : Env) (S : List Nat) :
    ∀ (p : Port) (written checksum : Nat), (∀ b ∈ S, b < 256) → checksum < 256 →
      (∀ b ∈ p.putc_ok, b = true) →
      _write_frame_loop k S p written checksum
        = (written + S.length,
           { p with putc_ok := p.putc_ok.drop (S.length + 1),
                    tx := p.tx ++ (S ++ [0xFF - (checksum + S.sum) % 256]) }) := by
  induction S with
  | nil =>
    intro p written checksum _ hc hok
    have h255 : (0xFF - checksum) % 256 = 0xFF - checksum := by omega
    have hc2 : checksum % 256 = checksum := by omega
    simp [_write_frame_loop, putc_of_all_ok p _ hok, h255, hc2]
  | cons b S ih =>
    intro p written checksum hS hc hok
    have hb : b < 256 := hS b (by simp)
    have hS2 : ∀ x ∈ S, x < 256 := fun x hx => hS x (by simp [hx])
    have hbm : b % 256 = b := by omega
    simp only [_write_frame_loop, to_uint8_to_int8, to_uint8_add_to_int8,
      putc_of_all_ok p _ hok]
    rw [ih _ _ _ hS2 (by omega) (by
      intro x hx
      exact hok x (List.mem_of_mem_drop hx))]
    simp [hbm, Nat.add_assoc, Nat.add_comm 1]


/-- Every `putc` succeeding, `_write_frame` on a non-empty payload emits SOF,
the two length bytes, the payload and the checksum, and returns the number of
payload bytes. -/
theorem write_frame_ok (k : Env) (p : Port) (S : List Nat) (hS : ∀ b ∈ S, b < 256)
    (h1 : 1 ≤ S.length) (hok : ∀ b ∈ p.putc_ok, b = true) :
    _write_frame k p S
      = (S.length,
         { p with putc_ok := p.putc_ok.drop (S.length + 4),
                  tx := p.tx ++ ([0x7E, S.length / 256 % 256, S.length % 256] ++ S
                          ++ [0xFF - S.sum % 256]) }) := by
  have hne : S.length ≠ 0 := by omega
  have hok1 : ∀ b ∈ (p.putc_ok.drop 1), b = true :=
    fun x hx => hok x (List.mem_of_mem_drop hx)
  have hok2 : ∀ b ∈ ((p.putc_ok.drop 1).drop 1), b = true :=
    fun x hx => hok1 x (List.mem_of_mem_drop hx)
  have hok3 : ∀ b ∈ (((p.putc_ok.drop 1).drop 1).drop 1), b = true :=
    fun x hx => hok2 x (List.mem_of_mem_drop hx)
  unfold _write_frame
  rw [if_neg hne, putc_of_all_ok p _ hok]
  simp only []
  rw [putc_of_all_ok _ _ hok1]
  simp only []
  rw [putc_of_all_ok _ _ hok2]
  simp only []
  rw [write_frame_loop_ok k S _ 0 0 hS (by omega) hok3]
  simp [SOF_CHAR, Nat.add_assoc]
  congr 1
  omega

/-! ## Frame reader: one byte at a time -/

theorem wait_for_byte_ready (p : Port) (b : Nat) (rest : List RxEv)
    (h : p.rx = RxEv.byte b :: rest) :
    _wait_for_byte p SERIAL_WAIT_TIMEOUT = (true, p) := by
  have : SERIAL_WAIT_TIMEOUT = 1999 + 1 := rfl
  rw [this]
  simp [_wait_for_byte, helium_serial_readable, h]

theorem getc_byte (p : Port) (b : Nat) (rest : List RxEv) (h : p.rx = RxEv.byte b :: rest) :
    helium_serial_getc p = (some (b % 256), { p with rx := rest }) := by
  simp [helium_serial_getc, h]

theorem wait_for_byte_silent (p : Port) (h : p.rx = []) :
    ∀ t, _wait_for_byte p t
      = (false, { p with waits := p.waits ++ List.replicate t 500 }) := by
  intro t
  induction t generalizing p with
  | zero => simp [_wait_for_byte]
  | succ t ih =>
    have h2 : (helium_wait_us p 500).rx = [] := by simp [helium_wait_us, h]
    simp only [_wait_for_byte, helium_serial_readable, h]
    rw [ih _ h2]
    simp [helium_wait_us, List.replicate_succ, h]

/-- In state `sof` a byte other than SOF is dropped. -/
theorem read_loop_sof_skip (k : Env) (fuel : Nat) (p : Port) (s : ReadSt) (b : Nat)
    (rest : List RxEv) (h : p.rx = RxEv.byte b :: rest) (hs : s.state = decode_state.sof)
    (hb : b % 256 ≠ SOF_CHAR) :
    _read_frame_loop k (fuel + 1) p s = _read_frame_loop k fuel { p with rx := rest } s := by
  simp only [_read_frame_loop, wait_for_byte_ready p b rest h, getc_byte p b rest h, hs]
  rw [if_neg hb]

/-- In state `sof` the SOF byte starts the length field. -/
theorem read_loop_sof (k : Env) (fuel : Nat) (p : Port) (s : ReadSt) (b : Nat)
    (rest : List RxEv) (h : p.rx = RxEv.byte b :: rest) (hs : s.state = decode_state.sof)
    (hb : b % 256 = SOF_CHAR) :
    _read_frame_loop k (fuel + 1) p s
      = _read_frame_loop k fuel { p with rx := rest }
          { s with state := decode_state.len_msb } := by
  simp only [_read_frame_loop, wait_for_byte_ready p b rest h, getc_byte p b rest h, hs]
  rw [if_pos hb]

theorem read_loop_len_msb (k : Env) (fuel : Nat) (p : Port) (s : ReadSt) (b : Nat)
    (rest : List RxEv) (h : p.rx = RxEv.byte b :: rest)
    (hs : s.state = decode_state.len_msb) :
    _read_frame_loop k (fuel + 1) p s
      = _read_frame_loop k fuel { p with rx := rest }
          { s with payload_size := b % 256 * 2 ^ 8, state := decode_state.len_lsb } := by
  simp only [_read_frame_loop, wait_for_byte_ready p b rest h, getc_byte p b rest h, hs]

theorem read_loop_len_lsb_overflow (k : Env) (fuel : Nat) (p : Port) (s : ReadSt) (b : Nat)
    (rest : List RxEv) (h : p.rx = RxEv.byte b :: rest)
    (hs : s.state = decode_state.len_lsb) (hov : s.payload_size + b % 256 > s.len) :
    _read_frame_loop k (fuel + 1) p s
      = some ⟨size_t_neg k 1, { p with rx := rest }, s.frame⟩ := by
  simp only [_read_frame_loop, wait_for_byte_ready p b rest h, getc_byte p b rest h, hs]
  rw [if_pos hov]

theorem read_loop_len_lsb (k : Env) (fuel : Nat) (p : Port) (s : ReadSt) (b : Nat)
    (rest : List RxEv) (h : p.rx = RxEv.byte b :: rest)
    (hs : s.state = decode_state.len_lsb) (hov : ¬ s.payload_size + b % 256 > s.len) :
    _read_frame_loop k (fuel + 1) p s
      = _read_frame_loop k fuel { p with rx := rest }
          { s with payload_size := s.payload_size + b % 256,
                   len := s.payload_size + b % 256, state := decode_state.payload } := by
  simp only [_read_frame_loop, wait_for_byte_ready p b rest h, getc_byte p b rest h, hs]
  rw [if_neg hov]

theorem read_loop_payload_more (k : Env) (fuel : Nat) (p : Port) (s : ReadSt) (b : Nat)
    (rest : List RxEv) (h : p.rx = RxEv.byte b :: rest)
    (hs : s.state = decode_state.payload)
    (hl : (s.len + 2 ^ k.size_bits - 1) % 2 ^ k.size_bits ≠ 0) :
    _read_frame_loop k (fuel + 1) p s
      = _read_frame_loop k fuel { p with rx := rest }
          { s with frame := s.frame ++ [b % 256],
                   payload_checksum := (s.payload_checksum + b % 256) % 256,
                   len := (s.len + 2 ^ k.size_bits - 1) % 2 ^ k.size_bits } := by
  simp only [_read_frame_loop, wait_for_byte_ready p b rest h, getc_byte p b rest h, hs]
  rw [if_neg hl]

theorem read_loop_payload_last (k : Env) (fuel : Nat) (p : Port) (s : ReadSt) (b : Nat)
    (rest : List RxEv) (h : p.rx = RxEv.byte b :: rest)
    (hs : s.state = decode_state.payload)
    (hl : (s.len + 2 ^ k.size_bits - 1) % 2 ^ k.size_bits = 0) :
    _read_frame_loop k (fuel + 1) p s
      = _read_frame_loop k fuel { p with rx := rest }
          { s with frame := s.frame ++ [b % 256],
                   payload_checksum := 0xFF - (s.payload_checksum + b % 256) % 256,
                   len := 0, state := decode_state.checksum } := by
  simp only [_read_frame_loop, wait_for_byte_ready p b rest h, getc_byte p b rest h, hs]
  rw [if_pos hl, hl]

theorem read_loop_checksum (k : Env) (fuel : Nat) (p : Port) (s : ReadSt) (b : Nat)
    (rest : List RxEv) (h : p.rx = RxEv.byte b :: rest)
    (hs : s.state = decode_state.checksum) :
    _read_frame_loop k (fuel + 1) p s
      = some ⟨if b % 256 = s.payload_checksum then s.payload_size else size_t_neg k 2,
              { p with rx := rest }, s.frame⟩ := by
  simp only [_read_frame_loop, wait_for_byte_ready p b rest h, getc_byte p b rest h, hs]
  split <;> rfl

/-! ## Frame reader: garbage, header, payload -/

theorem read_loop_garbage (k : Env) (fuel : Nat) (s : ReadSt) (rest : List RxEv)
    (hs : s.state = decode_state.sof) (G : List Nat) :
    ∀ p : Port, (∀ b ∈ G, b % 256 ≠ SOF_CHAR) → p.rx = rx_bytes G ++ rest →
      _read_frame_loop k (fuel + G.length) p s
        = _read_frame_loop k fuel { p with rx := rest } s := by
  induction G with
  | nil =>
    intro p _ h
    have : p = { p with rx := rest } := by
      cases p
      simp_all [rx_bytes]
    simp only [List.length_nil, Nat.add_zero]
    rw [← this]
  | cons b G ih =>
    intro p hG h
    have hb : b % 256 ≠ SOF_CHAR := hG b (by simp)
    have hG2 : ∀ x ∈ G, x % 256 ≠ SOF_CHAR := fun x hx => hG x (by simp [hx])
    have h1 : p.rx = RxEv.byte b :: (rx_bytes G ++ rest) := by simpa [rx_bytes] using h
    rw [List.length_cons, ← Nat.add_assoc, read_loop_sof_skip k _ p s b _ h1 hs hb]
    rw [ih _ hG2 rfl]

theorem read_loop_header (k : Env) (fuel : Nat) (p : Port) (s : ReadSt) (hi lo : Nat)
    (rest : List RxEv) (hs : s.state = decode_state.sof) (hhi : hi < 256) (hlo : lo < 256)
    (h : p.rx = rx_bytes [0x7E, hi, lo] ++ rest) :
    _read_frame_loop k (fuel + 3) p s
      = if hi * 256 + lo > s.len then
          some ⟨size_t_neg k 1, { p with rx := rest }, s.frame⟩
        else
          _read_frame_loop k fuel { p with rx := rest }
            { s with payload_size := hi * 256 + lo, len := hi * 256 + lo,
                     state := decode_state.payload } := by
  have h1 : p.rx = RxEv.byte 0x7E :: RxEv.byte hi :: RxEv.byte lo :: rest := by
    simpa [rx_bytes] using h
  have hhm : hi % 256 = hi := Nat.mod_eq_of_lt hhi
  have hlm : lo % 256 = lo := Nat.mod_eq_of_lt hlo
  rw [show fuel + 3 = (fuel + 1 + 1) + 1 from rfl,
    read_loop_sof k _ p s 0x7E _ h1 hs (by decide),
    read_loop_len_msb k _ _ _ hi (RxEv.byte lo :: rest) rfl rfl]
  by_cases hov : hi * 256 + lo > s.len
  · rw [if_pos hov, read_loop_len_lsb_overflow k _ _ _ lo rest rfl rfl
      (by simpa [hhm, hlm] using hov)]
  · rw [if_neg hov, read_loop_len_lsb k _ _ _ lo rest rfl rfl
      (by simpa [hhm, hlm] using hov)]
    simp [hhm, hlm]

theorem size_dec (k : Env) (n : Nat) (h : n < 2 ^ k.size_bits) :
    (n + 1 + 2 ^ k.size_bits - 1) % 2 ^ k.size_bits = n := by
  have : n + 1 + 2 ^ k.size_bits - 1 = n + 2 ^ k.size_bits := by omega
  rw [this, Nat.add_mod_right, Nat.mod_eq_of_lt h]

theorem read_loop_payload (k : Env) (fuel : Nat) (rest : List RxEv) (S : List Nat) :
    ∀ (p : Port) (s : ReadSt), S ≠ [] → (∀ b ∈ S, b < 256) → S.length < 2 ^ k.size_bits →
      s.state = decode_state.payload → s.len = S.length → s.payload_checksum < 256 →
      p.rx = rx_bytes S ++ rest →
      _read_frame_loop k (fuel + S.length) p s
        = _read_frame_loop k fuel { p with rx := rest }
            { s with frame := s.frame ++ S,
                     payload_checksum := 0xFF - (s.payload_checksum + S.sum) % 256,
                     len := 0, state := decode_state.checksum } := by
  induction S with
  | nil => intro p s h; exact absurd rfl h
  | cons b S ih =>
    intro p s _ hS hlt hs hlen hc h
    have hb : b < 256 := hS b (by simp)
    have hbm : b % 256 = b := Nat.mod_eq_of_lt hb
    have hS2 : ∀ x ∈ S, x < 256 := fun x hx => hS x (by simp [hx])
    have h1 : p.rx = RxEv.byte b :: (rx_bytes S ++ rest) := by simpa [rx_bytes] using h
    have hlt2 : S.length < 2 ^ k.size_bits := by
      simp only [List.length_cons] at hlt
      omega
    have hdec : (s.len + 2 ^ k.size_bits - 1) % 2 ^ k.size_bits = S.length := by
      rw [hlen, List.length_cons]
      exact size_dec k _ hlt2
    rw [List.length_cons, ← Nat.add_assoc]
    by_cases hnil : S = []
    · subst hnil
      rw [read_loop_payload_last k _ p s b _ h1 hs (by simpa using hdec)]
      simp [hbm, rx_bytes]
    · have hpos : S.length ≠ 0 := by
        intro h0
        exact hnil (List.length_eq_zero.mp h0)
      rw [read_loop_payload_more k _ p s b _ h1 hs (by rw [hdec]; exact hpos)]
      have hstep := ih { p with rx := rx_bytes S ++ rest }
        { s with frame := s.frame ++ [b % 256],
                 payload_checksum := (s.payload_checksum + b % 256) % 256,
                 len := (s.len + 2 ^ k.size_bits - 1) % 2 ^ k.size_bits }
        hnil hS2 hlt2 hs hdec (Nat.mod_lt _ (by decide)) rfl
      rw [hstep]
      simp [hbm, Nat.add_assoc]

/-- Reading garbage without SOF, then a header that declares the length of
the non-empty payload `S`, then `S`, then one more byte `c`: the result is the
length when `c` is the ones-complement of the byte sum and the checksum error
otherwise; the payload is in the buffer either way. -/
theorem read_frame_of_stream (k : Env) (p : Port) (cap : Nat) (G S : List Nat) (c : Nat)
    (rest : List RxEv) (hw : 16 ≤ k.size_bits) (hG : ∀ b ∈ G, b % 256 ≠ SOF_CHAR)
    (hS : ∀ b ∈ S, b < 256) (hne : S ≠ []) (hcap : S.length ≤ cap)
    (h16 : S.length ≤ 65535) (hc : c < 256)
    (h : p.rx = rx_bytes (G ++ [0x7E, S.length / 256, S.length % 256] ++ S ++ [c]) ++ rest) :
    _read_frame k p cap
      = some ⟨if c = 0xFF - S.sum % 256 then S.length else size_t_neg k 2,
              { p with rx := rest }, S⟩ := by
  have hpow : 65535 < 2 ^ k.size_bits :=
    Nat.lt_of_lt_of_le (by decide : 65535 < 2 ^ 16) (Nat.pow_le_pow_right (by decide) hw)
  have hrx : p.rx = rx_bytes G ++ (rx_bytes [0x7E, S.length / 256, S.length % 256]
      ++ (rx_bytes S ++ (RxEv.byte c :: rest))) := by
    simpa [rx_bytes] using h
  have hf : p.rx.length + 1 = (rest.length + 1 + 1 + S.length + 3) + G.length := by
    simp [hrx, rx_bytes]
    omega
  have hL : S.length / 256 * 256 + S.length % 256 = S.length := by omega
  unfold _read_frame
  rw [hf, read_loop_garbage k _ _ _ rfl G p hG hrx,
    read_loop_header k _ _ _ (S.length / 256) (S.length % 256) _ rfl (by omega) (by omega) rfl,
    if_neg (by simp only [hL]; omega),
    read_loop_payload k _ (RxEv.byte c :: rest) S _ _ hne hS (by omega) rfl (by simp [hL])
      (by show 0 < 256; decide) rfl,
    read_loop_checksum k _ _ _ c rest rfl rfl]
  simp [Nat.mod_eq_of_lt hc, hL]

/-! ## Frame reader: it always returns -/

theorem wait_for_byte_spec (t : Nat) :
    ∀ p : Port,
      (_wait_for_byte p t).2.tx = p.tx ∧ (_wait_for_byte p t).2.putc_ok = p.putc_ok ∧
      (∃ n, (_wait_for_byte p t).2.waits = p.waits ++ List.replicate n 500) ∧
      (_wait_for_byte p t).2.rx.length ≤ p.rx.length ∧
      ((_wait_for_byte p t).1 = true → (_wait_for_byte p t).2.rx ≠ []) := by
  induction t with
  | zero =>
    intro p
    refine ⟨?_, ?_, ⟨0, ?_⟩, ?_, ?_⟩ <;> simp [_wait_for_byte]
  | succ t ih =>
    intro p
    rcases hrx : p.rx with _ | ⟨e, rest⟩
    · obtain ⟨h1, h2, ⟨n, h3⟩, h4, h5⟩ := ih (helium_wait_us p 500)
      simp only [_wait_for_byte, helium_serial_readable, hrx]
      refine ⟨h1, h2, ⟨n + 1, ?_⟩, ?_, h5⟩
      · rw [h3]
        simp [helium_wait_us, List.replicate_succ]
      · simpa [helium_wait_us, hrx] using h4
    · cases e with
      | idle =>
        obtain ⟨h1, h2, ⟨n, h3⟩, h4, h5⟩ := ih (helium_wait_us { p with rx := rest } 500)
        simp only [_wait_for_byte, helium_serial_readable, hrx]
        refine ⟨h1, h2, ⟨n + 1, ?_⟩, ?_, h5⟩
        · rw [h3]
          simp [helium_wait_us, List.replicate_succ]
        · have : (helium_wait_us { p with rx := rest } 500).rx.length = rest.length := by
            simp [helium_wait_us]
          simp only [List.length_cons]
          omega
      | byte b =>
        refine ⟨?_, ?_, ⟨0, ?_⟩, ?_, ?_⟩ <;>
          simp [_wait_for_byte, helium_serial_readable, hrx]
      | fail =>
        refine ⟨?_, ?_, ⟨0, ?_⟩, ?_, ?_⟩ <;>
          simp [_wait_for_byte, helium_serial_readable, hrx]

theorem getc_spec (p : Port) :
    (helium_serial_getc p).2.tx = p.tx ∧ (helium_serial_getc p).2.putc_ok = p.putc_ok ∧
    (helium_serial_getc p).2.waits = p.waits ∧
    (p.rx ≠ [] → (helium_serial_getc p).2.rx.length + 1 = p.rx.length) ∧
    (∀ ch, (helium_serial_getc p).1 = some ch → ch < 256) := by
  unfold helium_serial_getc
  rcases hrx : p.rx with _ | ⟨e, rest⟩
  · simp
  · cases e <;> simp
    exact Nat.mod_lt _ (by decide)

theorem size_t_neg_lt (k : Env) (n : Nat) : size_t_neg k n < 2 ^ k.size_bits :=
  Nat.mod_lt _ (Nat.pos_pow_of_pos _ (by decide))

/-- One iteration of the loop of `_read_frame`: either it returns, or it goes
on with a strictly shorter receive script. Either way the transmit side is
untouched and every wait is a 500 us wait; a returned value is a declared
length of at most 65535 or one of the three error values. -/
theorem read_loop_step (k : Env) (fuel : Nat) (p : Port) (s : ReadSt) :
    (∃ r, _read_frame_loop k (fuel + 1) p s = some r ∧ r.port.tx = p.tx ∧
        r.port.putc_ok = p.putc_ok ∧
        (∃ n, r.port.waits = p.waits ++ List.replicate n 500) ∧
        (((s.state = decode_state.len_lsb → s.payload_size ≤ 65280) ∧
          (s.state = decode_state.payload → s.payload_size ≤ 65535) ∧
          (s.state = decode_state.checksum → s.payload_size ≤ 65535)) →
          r.ret ≤ 65535 ∨ r.ret = size_t_neg k 1 ∨ r.ret = size_t_neg k 2 ∨
            r.ret = size_t_neg k 3))
    ∨ (∃ p2 s2, _read_frame_loop k (fuel + 1) p s = _read_frame_loop k fuel p2 s2 ∧
        p2.rx.length < p.rx.length ∧ p2.tx = p.tx ∧ p2.putc_ok = p.putc_ok ∧
        (∃ n, p2.waits = p.waits ++ List.replicate n 500) ∧
        (((s.state = decode_state.len_lsb → s.payload_size ≤ 65280) ∧
          (s.state = decode_state.payload → s.payload_size ≤ 65535) ∧
          (s.state = decode_state.checksum → s.payload_size ≤ 65535)) →
         ((s2.state = decode_state.len_lsb → s2.payload_size ≤ 65280) ∧
          (s2.state = decode_state.payload → s2.payload_size ≤ 65535) ∧
          (s2.state = decode_state.checksum → s2.payload_size ≤ 65535)))) := by
  have hw := wait_for_byte_spec SERIAL_WAIT_TIMEOUT p
  rcases hwb : _wait_for_byte p SERIAL_WAIT_TIMEOUT with ⟨ok, p1⟩
  rw [hwb] at hw
  obtain ⟨hw1, hw2, hw3, hw4, hw5⟩ := hw
  simp only at hw1 hw2 hw3 hw4 hw5
  cases ok with
  | false =>
    left
    exact ⟨⟨0, p1, s.frame⟩, by simp only [_read_frame_loop, hwb], hw1, hw2, hw3,
      fun _ => Or.inl (Nat.zero_le _)⟩
  | true =>
    have hne : p1.rx ≠ [] := hw5 rfl
    have hg := getc_spec p1
    rcases hgc : helium_serial_getc p1 with ⟨och, p2⟩
    rw [hgc] at hg
    obtain ⟨hg1, hg2, hg3, hg4, hg5⟩ := hg
    simp only at hg1 hg2 hg3 hg4 hg5
    have hlen : p2.rx.length < p.rx.length := by
      have := hg4 hne
      omega
    have htx : p2.tx = p.tx := hg1.trans hw1
    have hpo : p2.putc_ok = p.putc_ok := hg2.trans hw2
    have hwa : ∃ n, p2.waits = p.waits ++ List.replicate n 500 := by
      rw [hg3]
      exact hw3
    cases och with
    | none =>
      left
      exact ⟨⟨size_t_neg k 3, p2, s.frame⟩, by simp only [_read_frame_loop, hwb, hgc],
        htx, hpo, hwa, fun _ => Or.inr (Or.inr (Or.inr rfl))⟩
    | some ch =>
      have hch : ch < 256 := hg5 ch rfl
      rcases hst : s.state with _ | _ | _ | _ | _
      · -- sof
        right
        by_cases hsof : ch = SOF_CHAR
        · refine ⟨p2, { s with state := decode_state.len_msb }, ?_, hlen, htx, hpo, hwa, ?_⟩
          · simp only [_read_frame_loop, hwb, hgc, hst]
            rw [if_pos hsof]
          · intro _
            simp
        · refine ⟨p2, s, ?_, hlen, htx, hpo, hwa, ?_⟩
          · simp only [_read_frame_loop, hwb, hgc, hst]
            rw [if_neg hsof]
          · intro _
            simp [hst]
      · -- len_msb
        right
        refine ⟨p2, { s with payload_size := ch * 2 ^ 8, state := decode_state.len_lsb },
          ?_, hlen, htx, hpo, hwa, ?_⟩
        · simp only [_read_frame_loop, hwb, hgc, hst]
        · intro _
          simp
          omega
      · -- len_lsb
        by_cases hov : s.payload_size + ch > s.len
        · left
          refine ⟨⟨size_t_neg k 1, p2, s.frame⟩, ?_, htx, hpo, hwa,
            fun _ => Or.inr (Or.inl rfl)⟩
          simp only [_read_frame_loop, hwb, hgc, hst]
          rw [if_pos hov]
        · right
          refine ⟨p2, { s with payload_size := s.payload_size + ch,
                               len := s.payload_size + ch,
                               state := decode_state.payload }, ?_, hlen, htx, hpo, hwa, ?_⟩
          · simp only [_read_frame_loop, hwb, hgc, hst]
            rw [if_neg hov]
          · intro hinv
            have := hinv.1 rfl
            simp
            omega
      · -- payload
        right
        by_cases hl : (s.len + 2 ^ k.size_bits - 1) % 2 ^ k.size_bits = 0
        · refine ⟨p2, { s with frame := s.frame ++ [ch],
                               payload_checksum := 0xFF - (s.payload_checksum + ch) % 256,
                               len := (s.len + 2 ^ k.size_bits - 1) % 2 ^ k.size_bits,
                               state := decode_state.checksum }, ?_, hlen, htx, hpo, hwa, ?_⟩
          · simp only [_read_frame_loop, hwb, hgc, hst]
            rw [if_pos hl]
          · intro hinv
            have := hinv.2.1 rfl
            simpa using this
        · refine ⟨p2, { s with frame := s.frame ++ [ch],
                               payload_checksum := (s.payload_checksum + ch) % 256,
                               len := (s.len + 2 ^ k.size_bits - 1) % 2 ^ k.size_bits },
            ?_, hlen, htx, hpo, hwa, ?_⟩
          · simp only [_read_frame_loop, hwb, hgc, hst]
            rw [if_neg hl]
          · intro hinv
            have := hinv.2.1 rfl
            simpa [hst] using this
      · -- checksum
        left
        by_cases hck : ch = s.payload_checksum
        · refine ⟨⟨s.payload_size, p2, s.frame⟩, ?_, htx, hpo, hwa,
            fun hinv => Or.inl (hinv.2.2 rfl)⟩
          simp only [_read_frame_loop, hwb, hgc, hst]
          rw [if_pos hck]
        · refine ⟨⟨size_t_neg k 2, p2, s.frame⟩, ?_, htx, hpo, hwa,
            fun _ => Or.inr (Or.inr (Or.inl rfl))⟩
          simp only [_read_frame_loop, hwb, hgc, hst]
          rw [if_neg hck]

/-- The loop of `_read_frame` returns whenever its bound exceeds the length
of the receive script. -/
theorem read_loop_returns (k : Env) (fuel : Nat) :
    ∀ (p : Port) (s : ReadSt), p.rx.length < fuel →
      ((s.state = decode_state.len_lsb → s.payload_size ≤ 65280) ∧
        (s.state = decode_state.payload → s.payload_size ≤ 65535) ∧
        (s.state = decode_state.checksum → s.payload_size ≤ 65535)) →
      ∃ r, _read_frame_loop k fuel p s = some r ∧ r.port.tx = p.tx ∧
        r.port.putc_ok = p.putc_ok ∧
        (∃ n, r.port.waits = p.waits ++ List.replicate n 500) ∧
        (r.ret ≤ 65535 ∨ r.ret = size_t_neg k 1 ∨ r.ret = size_t_neg k 2 ∨
          r.ret = size_t_neg k 3) := by
  induction fuel with
  | zero => intro p s h; exact absurd h (Nat.not_lt_zero _)
  | succ fuel ih =>
    intro p s hlt hinv
    rcases read_loop_step k fuel p s with ⟨r, h1, h2, h3, h4, h5⟩ | ⟨p2, s2, h1, h2, h3, h4, h5, h6⟩
    · exact ⟨r, h1, h2, h3, h4, h5 hinv⟩
    · obtain ⟨r, g1, g2, g3, ⟨n, g4⟩, g5⟩ := ih p2 s2 (by omega) (h6 hinv)
      obtain ⟨m, h5⟩ := h5
      refine ⟨r, h1.trans g1, g2.trans h3, g3.trans h4, ⟨m + n, ?_⟩, g5⟩
      rw [g4, h5, List.append_assoc, List.replicate_add]

/-- The function `_read_frame` always returns: it leaves the transmit side
alone, waits only in 500 us steps, and its value is a declared length of at
most 65535 or one of the three error values. -/
theorem read_frame_total (k : Env) (p : Port) (len : Nat) :
    ∃ r, _read_frame k p len = some r ∧ r.port.tx = p.tx ∧ r.port.putc_ok = p.putc_ok ∧
      (∃ n, r.port.waits = p.waits ++ List.replicate n 500) ∧
      (r.ret ≤ 65535 ∨ r.ret = size_t_neg k 1 ∨ r.ret = size_t_neg k 2 ∨
        r.ret = size_t_neg k 3) := by
  unfold _read_frame
  exact read_loop_returns k _ p _ (Nat.lt_succ_self _) (by simp)

/-! ## Claims about the frame codec -/

/-- One bit of a byte flipped: the result is a byte that differs from the
original by the weight of the bit. -/
theorem flip_bit_byte : ∀ b, b < 256 → ∀ bit, bit < 8 →
    b ^^^ 2 ^ bit < 256 ∧ 1 ≤ 2 ^ bit ∧ 2 ^ bit ≤ 128 ∧
      (b ^^^ 2 ^ bit = b + 2 ^ bit ∨ (b ^^^ 2 ^ bit) + 2 ^ bit = b) := by
  decide!

/-- C2. Frame encode: every `putc` succeeding, `_write_frame` on a payload `S`
of `L` bytes, `1 ≤ L ≤ 65535`, appends to the transmitted bytes exactly
`0x7E`, `L >> 8`, `L & 0xFF`, the bytes of `S`, and `0xFF - (sum of S mod 256)`,
and returns `L`; the payload `01 02 03` gives `7E 00 03 01 02 03 F9`. -/
theorem C2_write_frame_encode (k : Env) (p : Port) (S : List Nat)
    (hS : ∀ b ∈ S, b < 256) (h1 : 1 ≤ S.length) (h2 : S.length ≤ 65535)
    (hok : ∀ b ∈ p.putc_ok, b = true) :
    _write_frame k p S
        = (S.length,
           { p with putc_ok := p.putc_ok.drop (S.length + 4),
                    tx := p.tx ++ ([0x7E, S.length / 256, S.length % 256] ++ S
                            ++ [0xFF - S.sum % 256]) })
    ∧ _write_frame k (port_rx []) [0x01, 0x02, 0x03]
        = (3, { port_rx [] with tx := [0x7E, 0x00, 0x03, 0x01, 0x02, 0x03, 0xF9] }) := by
  constructor
  · have hhi : S.length / 256 % 256 = S.length / 256 := by omega
    rw [write_frame_ok k p S hS h1 hok, hhi]
  · rw [write_frame_ok k (port_rx []) [1, 2, 3] (by decide) (by decide) (by simp [port_rx])]
    simp [port_rx]

theorem C2_write_frame_encode_witness :
    (∀ b ∈ [0x10, 0xFF, 0x7E], b < 256) ∧ 1 ≤ [0x10, 0xFF, 0x7E].length ∧
    [0x10, 0xFF, 0x7E].length ≤ 65535 ∧ (∀ b ∈ (port_rx []).putc_ok, b = true) ∧
    (_write_frame env64 (port_rx []) [0x10, 0xFF, 0x7E]
        = ([0x10, 0xFF, 0x7E].length,
           { port_rx [] with
               putc_ok := (port_rx []).putc_ok.drop ([0x10, 0xFF, 0x7E].length + 4),
               tx := (port_rx []).tx
                 ++ ([0x7E, [0x10, 0xFF, 0x7E].length / 256, [0x10, 0xFF, 0x7E].length % 256]
                      ++ [0x10, 0xFF, 0x7E] ++ [0xFF - [0x10, 0xFF, 0x7E].sum % 256]) })
      ∧ _write_frame env64 (port_rx []) [0x01, 0x02, 0x03]
        = (3, { port_rx [] with tx := [0x7E, 0x00, 0x03, 0x01, 0x02, 0x03, 0xF9] })) :=
  ⟨by decide, by decide, by decide, by decide,
    C2_write_frame_encode env64 (port_rx []) [0x10, 0xFF, 0x7E] (by decide) (by decide)
      (by decide) (by decide)⟩

/-- C4. Frame length limit: when the first SOF byte of the stream is followed
by length bytes `hi`, `lo` with `hi * 256 + lo` greater than the capacity,
`_read_frame` returns the overflow error `-1`, has stored nothing, and leaves
everything after the low length byte unread. -/
theorem C4_length_limit (k : Env) (p : Port) (cap : Nat) (G : List Nat) (hi lo : Nat)
    (rest : List RxEv) (hG : ∀ b ∈ G, b < 256 ∧ b ≠ 0x7E) (hhi : hi < 256) (hlo : lo < 256)
    (hov : cap < hi * 256 + lo) :
    _read_frame k { p with rx := rx_bytes (G ++ [0x7E, hi, lo]) ++ rest } cap
      = some ⟨size_t_neg k 1, { p with rx := rest }, []⟩ := by
  have hG2 : ∀ b ∈ G, b % 256 ≠ SOF_CHAR := by
    intro b hb
    have := hG b hb
    rw [Nat.mod_eq_of_lt this.1]
    exact this.2
  have hf : (rx_bytes (G ++ [0x7E, hi, lo]) ++ rest).length + 1
      = (rest.length + 1 + 3) + G.length := by
    simp [rx_bytes]
    omega
  unfold _read_frame
  simp only []
  rw [hf, read_loop_garbage k _ _ (rx_bytes [0x7E, hi, lo] ++ rest) rfl G _ hG2
      (by simp [rx_bytes]),
    read_loop_header k _ _ _ hi lo rest rfl hhi hlo rfl, if_pos hov]

theorem C4_length_limit_witness :
    (∀ b ∈ [0xAA, 0x00], b < 256 ∧ b ≠ 0x7E) ∧ 0x01 < 256 ∧ 0x05 < 256 ∧
    260 < 0x01 * 256 + 0x05 ∧
    _read_frame env64
        { port_rx [] with
            rx := rx_bytes ([0xAA, 0x00] ++ [0x7E, 0x01, 0x05]) ++ rx_bytes [0x11, 0x22] } 260
      = some ⟨size_t_neg env64 1, { port_rx [] with rx := rx_bytes [0x11, 0x22] }, []⟩ :=
  ⟨by decide, by decide, by decide, by decide,
    C4_length_limit env64 (port_rx []) 260 [0xAA, 0x00] 0x01 0x05 (rx_bytes [0x11, 0x22])
      (by decide) (by decide) (by decide) (by decide)⟩

/-- C5, the example as the spec words it: on the stream
`AA BB 7E 00 01 2A D4` the reader does not return length 1; it returns the
checksum error, because the checksum of the payload `2A` is `0xFF - 0x2A = D5`. -/
theorem C5_spec_example_fails :
    _read_frame env64 (port_rx (rx_bytes [0xAA, 0xBB, 0x7E, 0x00, 0x01, 0x2A, 0xD4])) 64
        = some ⟨size_t_neg env64 2, port_rx [], [0x2A]⟩
    ∧ size_t_neg env64 2 ≠ 1 := by
  decide!

/-- C5 (amended). Leading garbage is discarded: for garbage `G` without a
`0x7E` byte and a well-formed frame with a non-empty payload `S` that fits
the buffer, `_read_frame` on garbage followed by the frame returns `|S|` with
`S` in the buffer, as it does on the frame alone; `AA BB 7E 00 01 2A D5`
yields payload `2A` and length 1. -/
theorem C5_leading_garbage (k : Env) (p : Port) (cap : Nat) (G S : List Nat)
    (rest : List RxEv) (hw : 16 ≤ k.size_bits) (hG : ∀ b ∈ G, b < 256 ∧ b ≠ 0x7E)
    (hS : ∀ b ∈ S, b < 256) (hne : S ≠ []) (hcap : S.length ≤ cap)
    (h16 : S.length ≤ 65535) :
    _read_frame k
        { p with rx := rx_bytes (G ++ [0x7E, S.length / 256, S.length % 256] ++ S
                          ++ [0xFF - S.sum % 256]) ++ rest } cap
      = some ⟨S.length, { p with rx := rest }, S⟩
    ∧ _read_frame k
        { p with rx := rx_bytes ([0x7E, S.length / 256, S.length % 256] ++ S
                          ++ [0xFF - S.sum % 256]) ++ rest } cap
      = some ⟨S.length, { p with rx := rest }, S⟩
    ∧ _read_frame k
        { p with rx := rx_bytes [0xAA, 0xBB, 0x7E, 0x00, 0x01, 0x2A, 0xD5] } cap
      = some ⟨1, { p with rx := [] }, [0x2A]⟩ := by
  have hG2 : ∀ b ∈ G, b % 256 ≠ SOF_CHAR := by
    intro b hb
    have := hG b hb
    rw [Nat.mod_eq_of_lt this.1]
    exact this.2
  have hpos : 1 ≤ S.length := by
    rcases S with _ | ⟨x, S⟩
    · exact absurd rfl hne
    · simp
  refine ⟨?_, ?_, ?_⟩
  · have := read_frame_of_stream k
      { p with rx := rx_bytes (G ++ [0x7E, S.length / 256, S.length % 256] ++ S
                          ++ [0xFF - S.sum % 256]) ++ rest }
      cap G S (0xFF - S.sum % 256) rest hw hG2 hS hne hcap h16 (by omega) rfl
    simpa using this
  · have := read_frame_of_stream k
      { p with rx := rx_bytes ([0x7E, S.length / 256, S.length % 256] ++ S
                          ++ [0xFF - S.sum % 256]) ++ rest }
      cap [] S (0xFF - S.sum % 256) rest hw (by simp) hS hne hcap h16 (by omega) rfl
    simpa using this
  · have := read_frame_of_stream k
      { p with rx := rx_bytes [0xAA, 0xBB, 0x7E, 0x00, 0x01, 0x2A, 0xD5] }
      cap [0xAA, 0xBB] [0x2A] 0xD5 [] hw (by decide) (by decide) (by decide)
      (by simp only [List.length_singleton]; omega) (by decide) (by decide) (by simp [rx_bytes])
    simpa using this

theorem C5_leading_garbage_witness :
    16 ≤ env64.size_bits ∧ (∀ b ∈ [0x00, 0xFF, 0x7D], b < 256 ∧ b ≠ 0x7E) ∧
    (∀ b ∈ [0x7E, 0x80], b < 256) ∧ [0x7E, 0x80] ≠ [] ∧ [0x7E, 0x80].length ≤ 2 ∧
    [0x7E, 0x80].length ≤ 65535 ∧
    (_read_frame env64
        { port_rx [] with
            rx := rx_bytes ([0x00, 0xFF, 0x7D]
                    ++ [0x7E, [0x7E, 0x80].length / 256, [0x7E, 0x80].length % 256]
                    ++ [0x7E, 0x80] ++ [0xFF - [0x7E, 0x80].sum % 256]) ++ [RxEv.idle] } 2
      = some ⟨[0x7E, 0x80].length, { port_rx [] with rx := [RxEv.idle] }, [0x7E, 0x80]⟩
    ∧ _read_frame env64
        { port_rx [] with
            rx := rx_bytes ([0x7E, [0x7E, 0x80].length / 256, [0x7E, 0x80].length % 256]
                    ++ [0x7E, 0x80] ++ [0xFF - [0x7E, 0x80].sum % 256]) ++ [RxEv.idle] } 2
      = some ⟨[0x7E, 0x80].length, { port_rx [] with rx := [RxEv.idle] }, [0x7E, 0x80]⟩
    ∧ _read_frame env64
        { port_rx [] with rx := rx_bytes [0xAA, 0xBB, 0x7E, 0x00, 0x01, 0x2A, 0xD5] } 2
      = some ⟨1, { port_rx [] with rx := [] }, [0x2A]⟩) :=
  ⟨by decide, by decide, by decide, by decide, by decide, by decide,
    C5_leading_garbage env64 (port_rx []) 2 [0x00, 0xFF, 0x7D] [0x7E, 0x80] [RxEv.idle]
      (by decide) (by decide) (by decide) (by decide) (by decide) (by decide)⟩

/-- C3, the example as the spec words it: the stream `7E 00 01 2A D5` does
not yield the checksum error; `D5 = 0xFF - 0x2A` is the right checksum and the
reader returns the success length 1. -/
theorem C3_spec_example_fails :
    _read_frame env64 (port_rx (rx_bytes [0x7E, 0x00, 0x01, 0x2A, 0xD5])) 64
        = some ⟨1, port_rx [], [0x2A]⟩
    ∧ 1 ≠ size_t_neg env64 2 := by
  decide!

/-- C3 (amended). Checksum detection: take a well-formed frame (SOF, length,
the non-empty payload `A ++ b :: B`, the right checksum) that fits the
buffer. The frame itself is read with success; with one bit of the payload
byte `b` flipped, or with one bit of the checksum byte flipped, `_read_frame`
returns the checksum error `-2`, which exceeds every length a header can
declare; `7E 00 01 2A D4` yields the checksum error. -/
theorem C3_checksum_detection (k : Env) (p : Port) (cap : Nat) (A B : List Nat) (b bit : Nat)
    (rest : List RxEv) (hw : 17 ≤ k.size_bits) (hA : ∀ x ∈ A, x < 256) (hb : b < 256)
    (hB : ∀ x ∈ B, x < 256) (hbit : bit < 8) (hcap : (A ++ b :: B).length ≤ cap)
    (h16 : (A ++ b :: B).length ≤ 65535) :
    _read_frame k
        { p with rx := rx_bytes ([0x7E, (A ++ b :: B).length / 256,
                            (A ++ b :: B).length % 256] ++ (A ++ b :: B)
                          ++ [0xFF - (A ++ b :: B).sum % 256]) ++ rest } cap
      = some ⟨(A ++ b :: B).length, { p with rx := rest }, A ++ b :: B⟩
    ∧ _read_frame k
        { p with rx := rx_bytes ([0x7E, (A ++ b :: B).length / 256,
                            (A ++ b :: B).length % 256] ++ (A ++ (b ^^^ 2 ^ bit) :: B)
                          ++ [0xFF - (A ++ b :: B).sum % 256]) ++ rest } cap
      = some ⟨size_t_neg k 2, { p with rx := rest }, A ++ (b ^^^ 2 ^ bit) :: B⟩
    ∧ _read_frame k
        { p with rx := rx_bytes ([0x7E, (A ++ b :: B).length / 256,
                            (A ++ b :: B).length % 256] ++ (A ++ b :: B)
                          ++ [(0xFF - (A ++ b :: B).sum % 256) ^^^ 2 ^ bit]) ++ rest } cap
      = some ⟨size_t_neg k 2, { p with rx := rest }, A ++ b :: B⟩
    ∧ 65535 < size_t_neg k 2
    ∧ _read_frame k { p with rx := rx_bytes [0x7E, 0x00, 0x01, 0x2A, 0xD4] } cap
      = some ⟨size_t_neg k 2, { p with rx := [] }, [0x2A]⟩ := by
  have hw16 : 16 ≤ k.size_bits := by omega
  have hS : ∀ x ∈ A ++ b :: B, x < 256 := by
    intro x hx
    rcases List.mem_append.mp hx with h | h
    · exact hA x h
    · rcases List.mem_cons.mp h with h | h
      · exact h ▸ hb
      · exact hB x h
  obtain ⟨hf1, hf2, hf3, hf4⟩ := flip_bit_byte b hb bit hbit
  have hS2 : ∀ x ∈ A ++ (b ^^^ 2 ^ bit) :: B, x < 256 := by
    intro x hx
    rcases List.mem_append.mp hx with h | h
    · exact hA x h
    · rcases List.mem_cons.mp h with h | h
      · exact h ▸ hf1
      · exact hB x h
  have hlen : (A ++ (b ^^^ 2 ^ bit) :: B).length = (A ++ b :: B).length := by simp
  have hone : 1 ≤ cap := by
    have : 1 ≤ (A ++ b :: B).length := by
      simp only [List.length_append, List.length_cons]
      omega
    omega
  refine ⟨?_, ?_, ?_, ?_, ?_⟩
  · have := read_frame_of_stream k
      { p with rx := rx_bytes ([0x7E, (A ++ b :: B).length / 256,
                            (A ++ b :: B).length % 256] ++ (A ++ b :: B)
                          ++ [0xFF - (A ++ b :: B).sum % 256]) ++ rest }
      cap [] (A ++ b :: B) (0xFF - (A ++ b :: B).sum % 256) rest hw16 (by simp) hS (by simp)
      hcap h16 (by omega) rfl
    simpa using this
  · have := read_frame_of_stream k
      { p with rx := rx_bytes ([0x7E, (A ++ b :: B).length / 256,
                            (A ++ b :: B).length % 256] ++ (A ++ (b ^^^ 2 ^ bit) :: B)
                          ++ [0xFF - (A ++ b :: B).sum % 256]) ++ rest }
      cap [] (A ++ (b ^^^ 2 ^ bit) :: B) (0xFF - (A ++ b :: B).sum % 256) rest hw16 (by simp)
      hS2 (by simp) (by rw [hlen]; exact hcap) (by rw [hlen]; exact h16) (by omega)
      (by rw [hlen]; rfl)
    rw [this, if_neg]
    simp only [List.sum_append, List.sum_cons]
    rcases hf4 with h | h
    · rw [h]
      omega
    · omega
  · obtain ⟨hc1, _, _, hc4⟩ :=
      flip_bit_byte (0xFF - (A ++ b :: B).sum % 256) (by omega) bit hbit
    have := read_frame_of_stream k
      { p with rx := rx_bytes ([0x7E, (A ++ b :: B).length / 256,
                            (A ++ b :: B).length % 256] ++ (A ++ b :: B)
                          ++ [(0xFF - (A ++ b :: B).sum % 256) ^^^ 2 ^ bit]) ++ rest }
      cap [] (A ++ b :: B) ((0xFF - (A ++ b :: B).sum % 256) ^^^ 2 ^ bit) rest hw16 (by simp)
      hS (by simp) hcap h16 hc1 rfl
    rw [this, if_neg]
    rcases hc4 with h | h
    · rw [h]
      omega
    · omega
  · have h17 : 2 ^ 17 ≤ 2 ^ k.size_bits := Nat.pow_le_pow_right (by decide) hw
    have hmod : 2 % 2 ^ k.size_bits = 2 := Nat.mod_eq_of_lt (by omega)
    unfold size_t_neg
    rw [hmod, Nat.mod_eq_of_lt (by omega)]
    omega
  · have := read_frame_of_stream k { p with rx := rx_bytes [0x7E, 0x00, 0x01, 0x2A, 0xD4] }
      cap [] [0x2A] 0xD4 [] hw16 (by simp) (by decide) (by decide)
      (by simp only [List.length_singleton]; omega) (by decide) (by decide) (by simp [rx_bytes])
    simpa using this

theorem C3_checksum_detection_witness :
    17 ≤ env64.size_bits ∧ (∀ x ∈ [0x12], x < 256) ∧ 0x80 < 256 ∧
    (∀ x ∈ [0x34, 0x7E], x < 256) ∧ 7 < 8 ∧ ([0x12] ++ 0x80 :: [0x34, 0x7E]).length ≤ 4 ∧
    ([0x12] ++ 0x80 :: [0x34, 0x7E]).length ≤ 65535 ∧
    (_read_frame env64
        { port_rx [] with rx := rx_bytes ([0x7E, ([0x12] ++ 0x80 :: [0x34, 0x7E]).length / 256,
                            ([0x12] ++ 0x80 :: [0x34, 0x7E]).length % 256] ++ ([0x12] ++ 0x80 :: [0x34, 0x7E])
                          ++ [0xFF - ([0x12] ++ 0x80 :: [0x34, 0x7E]).sum % 256]) ++ rx_bytes [0x55] } 4
      = some ⟨([0x12] ++ 0x80 :: [0x34, 0x7E]).length, { port_rx [] with rx := rx_bytes [0x55] }, [0x12] ++ 0x80 :: [0x34, 0x7E]⟩
    ∧ _read_frame env64
        { port_rx [] with rx := rx_bytes ([0x7E, ([0x12] ++ 0x80 :: [0x34, 0x7E]).length / 256,
                            ([0x12] ++ 0x80 :: [0x34, 0x7E]).length % 256] ++ ([0x12] ++ (0x80 ^^^ 2 ^ 7) :: [0x34, 0x7E])
                          ++ [0xFF - ([0x12] ++ 0x80 :: [0x34, 0x7E]).sum % 256]) ++ rx_bytes [0x55] } 4
      = some ⟨size_t_neg env64 2, { port_rx [] with rx := rx_bytes [0x55] }, [0x12] ++ (0x80 ^^^ 2 ^ 7) :: [0x34, 0x7E]⟩
    ∧ _read_frame env64
        { port_rx [] with rx := rx_bytes ([0x7E, ([0x12] ++ 0x80 :: [0x34, 0x7E]).length / 256,
                            ([0x12] ++ 0x80 :: [0x34, 0x7E]).length % 256] ++ ([0x12] ++ 0x80 :: [0x34, 0x7E])
                          ++ [(0xFF - ([0x12] ++ 0x80 :: [0x34, 0x7E]).sum % 256) ^^^ 2 ^ 7]) ++ rx_bytes [0x55] } 4
      = some ⟨size_t_neg env64 2, { port_rx [] with rx := rx_bytes [0x55] }, [0x12] ++ 0x80 :: [0x34, 0x7E]⟩
    ∧ 65535 < size_t_neg env64 2
    ∧ _read_frame env64 { port_rx [] with rx := rx_bytes [0x7E, 0x00, 0x01, 0x2A, 0xD4] } 4
      = some ⟨size_t_neg env64 2, { port_rx [] with rx := [] }, [0x2A]⟩) :=
  ⟨by decide, by decide, by decide, by decide, by decide, by decide, by decide,
    C3_checksum_detection env64 (port_rx []) 4 [0x12] [0x34, 0x7E] 0x80 7 (rx_bytes [0x55])
      (by decide) (by decide) (by decide) (by decide) (by decide) (by decide) (by decide)⟩

/-! ## Frame reader: a header that declares length zero -/

theorem read_loop_timeout (k : Env) (fuel : Nat) (p : Port) (s : ReadSt) (h : p.rx = []) :
    _read_frame_loop k (fuel + 1) p s
      = some ⟨0, { p with waits := p.waits ++ List.replicate SERIAL_WAIT_TIMEOUT 500 },
              s.frame⟩ := by
  simp only [_read_frame_loop, wait_for_byte_silent p h]

theorem read_loop_payload_run (k : Env) (fuel : Nat) (rest : List RxEv) (T : List Nat) :
    ∀ (p : Port) (s : ReadSt), (∀ b ∈ T, b < 256) → s.state = decode_state.payload →
      T.length < s.len → s.len < 2 ^ k.size_bits → s.payload_checksum < 256 →
      p.rx = rx_bytes T ++ rest →
      _read_frame_loop k (fuel + T.length) p s
        = _read_frame_loop k fuel { p with rx := rest }
            { s with frame := s.frame ++ T,
                     payload_checksum := (s.payload_checksum + T.sum) % 256,
                     len := s.len - T.length } := by
  induction T with
  | nil =>
    intro p s _ _ _ _ hc h
    have hp : p = { p with rx := rest } := by
      cases p
      simp_all [rx_bytes]
    rw [← hp]
    simp [Nat.mod_eq_of_lt hc]
  | cons b T ih =>
    intro p s hT hs hlt hM hc h
    have hb : b < 256 := hT b (by simp)
    have hbm : b % 256 = b := Nat.mod_eq_of_lt hb
    have hT2 : ∀ x ∈ T, x < 256 := fun x hx => hT x (by simp [hx])
    have h1 : p.rx = RxEv.byte b :: (rx_bytes T ++ rest) := by simpa [rx_bytes] using h
    simp only [List.length_cons] at hlt
    have hdec : (s.len + 2 ^ k.size_bits - 1) % 2 ^ k.size_bits = s.len - 1 := by
      have := size_dec k (s.len - 1) (by omega)
      rw [← this]
      congr 2
      omega
    rw [List.length_cons, ← Nat.add_assoc,
      read_loop_payload_more k _ p s b _ h1 hs (by rw [hdec]; omega)]
    have hstep := ih { p with rx := rx_bytes T ++ rest }
      { s with frame := s.frame ++ [b % 256],
               payload_checksum := (s.payload_checksum + b % 256) % 256,
               len := (s.len + 2 ^ k.size_bits - 1) % 2 ^ k.size_bits }
      hT2 hs (by simp only [hdec]; omega) (by simp only [hdec]; omega)
      (Nat.mod_lt _ (by decide)) rfl
    rw [hstep]
    simp [hbm, hdec, Nat.add_assoc, Nat.sub_sub, Nat.add_comm 1]

/-- After a header that declares length zero the reader is in its payload
state with a counter that wraps at the first decrement: it stores every byte
that follows, and returns the timeout value once the line is silent. -/
theorem read_frame_zero_header (k : Env) (p : Port) (cap : Nat) (b : Nat) (T : List Nat)
    (hw : 1 ≤ k.size_bits) (hb : b < 256) (hT : ∀ x ∈ T, x < 256)
    (hlen : T.length + 1 < 2 ^ k.size_bits)
    (h : p.rx = rx_bytes ([0x7E, 0, 0] ++ b :: T)) :
    _read_frame k p cap
      = some ⟨0, { p with rx := [],
                          waits := p.waits ++ List.replicate SERIAL_WAIT_TIMEOUT 500 },
              b :: T⟩ := by
  have hrx : p.rx = rx_bytes [0x7E, 0, 0] ++ (RxEv.byte b :: (rx_bytes T ++ [])) := by
    simpa [rx_bytes] using h
  have hf : p.rx.length + 1 = 0 + 1 + T.length + 1 + 3 := by
    simp [hrx, rx_bytes]
    omega
  have h2 : 2 ≤ 2 ^ k.size_bits := by
    calc 2 = 2 ^ 1 := rfl
      _ ≤ 2 ^ k.size_bits := Nat.pow_le_pow_right (by decide) hw
  have hwrap : (0 + 2 ^ k.size_bits - 1) % 2 ^ k.size_bits = 2 ^ k.size_bits - 1 := by
    rw [Nat.zero_add]
    exact Nat.mod_eq_of_lt (by omega)
  unfold _read_frame
  rw [hf, read_loop_header k _ p _ 0 0 _ rfl (by decide) (by decide) hrx,
    if_neg (by simp),
    read_loop_payload_more k _ _ _ b (rx_bytes T ++ []) rfl rfl (by
      show (0 * 256 + 0 + 2 ^ k.size_bits - 1) % 2 ^ k.size_bits ≠ 0
      simp only [Nat.zero_mul]
      rw [hwrap]
      omega)]
  have hrun := read_loop_payload_run k (0 + 1) [] T
    { p with rx := rx_bytes T ++ [] }
    { state := decode_state.payload, payload_size := 0 * 256 + 0,
      payload_checksum := (0 + b % 256) % 256,
      len := (0 * 256 + 0 + 2 ^ k.size_bits - 1) % 2 ^ k.size_bits,
      frame := [] ++ [b % 256] }
    hT rfl (by
      show T.length < (0 * 256 + 0 + 2 ^ k.size_bits - 1) % 2 ^ k.size_bits
      simp only [Nat.zero_mul]
      rw [hwrap]
      omega) (Nat.mod_lt _ (by omega)) (Nat.mod_lt _ (by decide)) rfl
  rw [hrun, read_loop_timeout k 0 _ _ rfl]
  simp [Nat.mod_eq_of_lt hb]

/-- A payload of 65536 bytes does not survive the round trip: the writer emits
the header `7E 00 00`, and the reader, fed what the writer emitted, stores the
payload and the checksum byte and returns the timeout value 0. -/
theorem round_trip_65536 (k : Env) (cap : Nat) (S : List Nat) (hw : 17 ≤ k.size_bits)
    (hS : ∀ b ∈ S, b < 256) (hlen : S.length = 65536) :
    _read_frame k
        (port_rx (rx_bytes ((_write_frame k (port_rx []) S).2.tx.drop
          (port_rx []).tx.length))) cap
      = some ⟨0, { port_rx [] with waits := List.replicate SERIAL_WAIT_TIMEOUT 500 },
              S ++ [0xFF - S.sum % 256]⟩ := by
  have h17 : 2 ^ 17 ≤ 2 ^ k.size_bits := Nat.pow_le_pow_right (by decide) hw
  rcases S with _ | ⟨b, T⟩
  · simp at hlen
  · have hb : b < 256 := hS b (by simp)
    have hT : ∀ x ∈ T ++ [0xFF - (b :: T).sum % 256], x < 256 := by
      intro x hx
      rcases List.mem_append.mp hx with h | h
      · exact hS x (by simp [h])
      · rw [List.mem_singleton.mp h]
        omega
    have hTlen : T.length = 65535 := by
      simp only [List.length_cons] at hlen
      omega
    rw [write_frame_ok k (port_rx []) (b :: T) hS (by rw [hlen]; decide) (by simp [port_rx])]
    have hz := read_frame_zero_header k
      (port_rx (rx_bytes ([0x7E, 0, 0] ++ b :: (T ++ [0xFF - (b :: T).sum % 256])))) cap b
      (T ++ [0xFF - (b :: T).sum % 256]) (by omega) hb hT
      (by
        rw [List.length_append, hTlen]
        simp only [List.length_singleton]
        omega)
      (by simp [port_rx])
    have hemit : ((port_rx []).tx ++ ([0x7E, (b :: T).length / 256 % 256,
        (b :: T).length % 256] ++ (b :: T)
          ++ [0xFF - (b :: T).sum % 256])).drop (port_rx []).tx.length
        = [0x7E, 0, 0] ++ b :: (T ++ [0xFF - (b :: T).sum % 256]) := by
      rw [hlen]
      simp [port_rx]
    simp only []
    rw [hemit, hz]
    simp [port_rx]

/-- C1, as the spec words it, fails for a payload longer than the 16-bit
length field: with a buffer of 65536 bytes and the payload of 65536 zero
bytes the writer emits the header `7E 00 00`, and the reader, fed what the
writer emitted, stores all 65537 bytes that follow and returns 0, not 65536. -/
theorem C1_long_payload_fails :
    (List.replicate 65536 0).length ≤ 65536 ∧
    _read_frame env64
        (port_rx (rx_bytes ((_write_frame env64 (port_rx []) (List.replicate 65536 0)).2.tx.drop
          (port_rx []).tx.length))) 65536
      = some ⟨0, { port_rx [] with waits := List.replicate SERIAL_WAIT_TIMEOUT 500 },
              List.replicate 65536 0 ++ [0xFF - (List.replicate 65536 0).sum % 256]⟩
    ∧ (0 : Nat) ≠ (List.replicate 65536 0).length := by
  have hS : ∀ b ∈ List.replicate 65536 0, b < 256 := by
    intro b hb
    rw [List.eq_of_mem_replicate hb]
    decide
  exact ⟨by rw [List.length_replicate],
    round_trip_65536 env64 65536 _ (by decide) hS (List.length_replicate _ _),
    by rw [List.length_replicate]; decide⟩

/-- C1 (amended). Frame round-trip: for every byte string `S` of length
`0 .. min(cap, 65535)`, the reader `_read_frame` with capacity `cap`, fed the
bytes that `_write_frame` emits for `S` (every `putc` succeeding), returns
`|S|` and leaves exactly `S` in the buffer. -/
theorem C1_frame_round_trip (k : Env) (pw pr : Port) (cap : Nat) (S : List Nat)
    (hw : 16 ≤ k.size_bits) (hS : ∀ b ∈ S, b < 256) (hcap : S.length ≤ cap)
    (h16 : S.length ≤ 65535) (hok : ∀ b ∈ pw.putc_ok, b = true)
    (hrx : pr.rx = rx_bytes ((_write_frame k pw S).2.tx.drop pw.tx.length)) :
    ∃ r, _read_frame k pr cap = some r ∧ r.ret = S.length ∧ r.frame = S := by
  by_cases hne : S = []
  · subst hne
    have hrx2 : pr.rx = [] := by
      rw [hrx]
      simp [_write_frame, rx_bytes]
    refine ⟨⟨0, { pr with waits := pr.waits ++ List.replicate SERIAL_WAIT_TIMEOUT 500 }, []⟩,
      ?_, rfl, rfl⟩
    have hf : pr.rx.length + 1 = 0 + 1 := by
      rw [hrx2]
      rfl
    unfold _read_frame
    rw [hf]
    exact read_loop_timeout k 0 pr _ hrx2
  · have hpos : 1 ≤ S.length := by
      rcases S with _ | ⟨x, S⟩
      · exact absurd rfl hne
      · simp
    have hhi : S.length / 256 % 256 = S.length / 256 := by omega
    rw [write_frame_ok k pw S hS hpos hok] at hrx
    simp only [List.drop_left] at hrx
    rw [hhi] at hrx
    have := read_frame_of_stream k pr cap [] S (0xFF - S.sum % 256) [] hw (by simp) hS hne
      hcap h16 (by omega) (by simpa using hrx)
    exact ⟨_, this, by simp, rfl⟩

theorem C1_frame_round_trip_witness :
    16 ≤ env64.size_bits ∧ (∀ b ∈ [0x7E, 0x00, 0xFF], b < 256) ∧
    [0x7E, 0x00, 0xFF].length ≤ 3 ∧ [0x7E, 0x00, 0xFF].length ≤ 65535 ∧
    (∀ b ∈ (port_rx []).putc_ok, b = true) ∧
    (port_rx (rx_bytes [0x7E, 0x00, 0x03, 0x7E, 0x00, 0xFF, 0x82])).rx
      = rx_bytes ((_write_frame env64 (port_rx []) [0x7E, 0x00, 0xFF]).2.tx.drop
          (port_rx []).tx.length) ∧
    ∃ r, _read_frame env64 (port_rx (rx_bytes [0x7E, 0x00, 0x03, 0x7E, 0x00, 0xFF, 0x82])) 3
        = some r ∧ r.ret = [0x7E, 0x00, 0xFF].length ∧ r.frame = [0x7E, 0x00, 0xFF] :=
  ⟨by decide, by decide, by decide, by decide, by decide, by decide,
    C1_frame_round_trip env64 (port_rx [])
      (port_rx (rx_bytes [0x7E, 0x00, 0x03, 0x7E, 0x00, 0xFF, 0x82])) 3 [0x7E, 0x00, 0xFF]
      (by decide) (by decide) (by decide) (by decide) (by decide) (by decide)⟩

/-! ## Transaction engine -/

theorem putc_spec (p : Port) (ch : Nat) :
    (helium_serial_putc p ch).2.waits = p.waits ∧ (helium_serial_putc p ch).2.rx = p.rx := by
  unfold helium_serial_putc
  rcases p.putc_ok with _ | ⟨b, rest⟩
  · simp
  · cases b <;> simp

theorem write_frame_loop_waits (k : Env) (S : List Nat) :
    ∀ (p : Port) (written checksum : Nat),
      (_write_frame_loop k S p written checksum).2.waits = p.waits := by
  induction S with
  | nil =>
    intro p written checksum
    have := (putc_spec p (0xFF - checksum)).1
    simp only [_write_frame_loop]
    split <;> simp_all
  | cons b S ih =>
    intro p written checksum
    have := (putc_spec p (to_uint8 (to_int8 b))).1
    simp only [_write_frame_loop]
    split
    · simp_all
    · rename_i p1 heq
      rw [ih]
      simp_all

theorem write_frame_waits (k : Env) (p : Port) (S : List Nat) :
    (_write_frame k p S).2.waits = p.waits := by
  unfold _write_frame
  split
  · rfl
  · have h1 := (putc_spec p SOF_CHAR).1
    split
    · simp_all
    · rename_i p1 heq1
      have h2 := (putc_spec p1 (S.length / 2 ^ 8)).1
      split
      · simp_all
      · rename_i p2 heq2
        have h3 := (putc_spec p2 (S.length % 256)).1
        split
        · simp_all
        · rename_i p3 heq3
          rw [write_frame_loop_waits]
          simp_all

/-- The shape of what `send_command` leaves: the counter advanced by one
modulo `2^16`, and a port on which the call has waited only in 500 us steps. -/
theorem send_command_shape (k : Env) (c : helium_ctx) :
    ∃ st p t, send_command k c
        = (st, { param := p, txn_seq := (c.txn_seq + 1) % 65536, txn := t }) ∧
      ∃ n, p.waits = c.param.waits ++ List.replicate n 500 := by
  rcases henc : k.encode_txn k.BUF_SIZE (send_command_seq c).txn with _ | encoded
  · exact ⟨_, _, _, by simp only [send_command, henc]; rfl, 0, by simp⟩
  · rcases hwf : _write_frame k (send_command_seq c).param encoded with ⟨len, p1⟩
    have hw : p1.waits = c.param.waits := by
      have := write_frame_waits k (send_command_seq c).param encoded
      rw [hwf] at this
      exact this
    by_cases hlen : len ≠ encoded.length
    · exact ⟨_, _, _, by simp only [send_command, henc, hwf, if_pos hlen]; rfl, 0,
        by simp [hw]⟩
    · obtain ⟨r, hr, _, _, ⟨n, hn⟩, _⟩ := read_frame_total k p1 k.BUF_SIZE
      by_cases hint : to_int k r.ret ≤ 0
      · exact ⟨_, _, _, by simp only [send_command, henc, hwf, if_neg hlen, hr, if_pos hint]; rfl,
          n, by rw [hn, hw]⟩
      · rcases hdec : k.decode_txn (r.frame.take r.ret) (send_command_seq c).txn with ⟨ok, t⟩
        cases ok
        · exact ⟨_, _, _,
            by simp only [send_command, henc, hwf, if_neg hlen, hr, if_neg hint, hdec]; rfl,
            n, by rw [hn, hw]⟩
        · exact ⟨_, _, _,
            by simp only [send_command, henc, hwf, if_neg hlen, hr, if_neg hint, hdec]; rfl,
            n, by rw [hn, hw]⟩

/-- Every call of `send_command` advances the counter by one, modulo `2^16`. -/
theorem send_command_txn_seq (k : Env) (c : helium_ctx) :
    (send_command k c).2.txn_seq = (c.txn_seq + 1) % 65536 := by
  obtain ⟨st, p, t, h, _⟩ := send_command_shape k c
  rw [h]

/-- A call of `send_command` waits only in 500 us steps. -/
theorem send_command_waits (k : Env) (c : helium_ctx) :
    ∃ n, (send_command k c).2.param.waits = c.param.waits ++ List.replicate n 500 := by
  obtain ⟨st, p, t, h, hn⟩ := send_command_shape k c
  rw [h]
  exact hn


/-! ## Claims about the transaction engine and the retry loops -/

theorem before_call_txn_seq (k : Env) (edit : Nat → helium_ctx → helium_ctx)
    (hedit : ∀ i c, (edit i c).txn_seq = c.txn_seq) (c0 : helium_ctx) (n : Nat) :
    (before_call k edit c0 n).txn_seq % 65536 = (c0.txn_seq + n) % 65536 := by
  induction n with
  | zero => simp [before_call, hedit]
  | succ n ih =>
    simp only [before_call, hedit, send_command_txn_seq]
    omega

/-- C6. Sequence monotonicity: in a run of `send_command` calls on one
context whose counter starts at `s0`, whatever the command layer does to the
rest of the context between the calls, the record that call number `n`
(from 0) hands to the encoder has `seq = (s0 + n) mod 2^16`, and the call
leaves the counter at `(s0 + n + 1) mod 2^16`: one step per call, from 65535
to 0. -/
theorem C6_sequence_monotonic (k : Env) (edit : Nat → helium_ctx → helium_ctx)
    (hedit : ∀ i c, (edit i c).txn_seq = c.txn_seq) (c0 : helium_ctx) (n : Nat) :
    (send_command_seq (before_call k edit c0 n)).txn.seq = (c0.txn_seq + n) % 65536
    ∧ (send_command k (before_call k edit c0 n)).2.txn_seq = (c0.txn_seq + n + 1) % 65536
    ∧ (∀ c : helium_ctx, (send_command k c).2.txn_seq = (c.txn_seq + 1) % 65536)
    ∧ (∀ c : helium_ctx, c.txn_seq = 65535 → (send_command k c).2.txn_seq = 0) := by
  have h := before_call_txn_seq k edit hedit c0 n
  refine ⟨?_, ?_, send_command_txn_seq k, ?_⟩
  · simpa [send_command_seq] using h
  · rw [send_command_txn_seq]
    omega
  · intro c hc
    rw [send_command_txn_seq, hc]

theorem C6_sequence_monotonic_witness :
    (∀ (i : Nat) (c : helium_ctx), ((fun _ c => helium_poll_request c) i c).txn_seq = c.txn_seq)
    ∧ ((send_command_seq (before_call env64 (fun _ c => helium_poll_request c)
          { ctx_init (port_rx []) with txn_seq := 65534 } 3)).txn.seq = (65534 + 3) % 65536
      ∧ (send_command env64 (before_call env64 (fun _ c => helium_poll_request c)
          { ctx_init (port_rx []) with txn_seq := 65534 } 3)).2.txn_seq
          = (65534 + 3 + 1) % 65536
      ∧ (∀ c : helium_ctx, (send_command env64 c).2.txn_seq = (c.txn_seq + 1) % 65536)
      ∧ (∀ c : helium_ctx, c.txn_seq = 65535 → (send_command env64 c).2.txn_seq = 0)) :=
  ⟨fun _ _ => rfl,
    C6_sequence_monotonic env64 (fun _ c => helium_poll_request c) (fun _ _ => rfl)
      { ctx_init (port_rx []) with txn_seq := 65534 } 3⟩

/-- C7. Send retry bound: when each of three attempts is answered with NACK or
CHANNEL_ACCESS, `helium_send` returns COMMUNICATION in the state that exactly
three `send_command` round trips leave; when the first attempt is answered
with DROPPED, it returns DROPPED in the state that one round trip leaves. The
counter `txn_seq` has advanced by three and by one. -/
theorem C7_send_retry_bound (k : Env) (ctx : helium_ctx) (data : Option (List Nat))
    (len : Nat) :
    ((∀ i, i < 3 →
        (send_command k
          ((fun c => (send_command k c).2)^[i] (helium_send_request k ctx data len))).1
          = send_command_status.send_command_OK ∧
        ((send_command k
          ((fun c => (send_command k c).2)^[i] (helium_send_request k ctx data len))).2.txn.send_res
            = res_send.res_send_err_nack ∨
         (send_command k
          ((fun c => (send_command k c).2)^[i] (helium_send_request k ctx data len))).2.txn.send_res
            = res_send.res_send_err_channel_access)) →
      helium_send k ctx data len
          = (helium_send_status.helium_send_ERR_COMMUNICATION,
             (fun c => (send_command k c).2)^[3] (helium_send_request k ctx data len))
      ∧ (helium_send k ctx data len).2.txn_seq = (ctx.txn_seq + 3) % 65536)
    ∧ ((send_command k (helium_send_request k ctx data len)).1
          = send_command_status.send_command_OK ∧
        (send_command k (helium_send_request k ctx data len)).2.txn.send_res
          = res_send.res_send_err_dropped →
      helium_send k ctx data len
          = (helium_send_status.helium_send_ERR_DROPPED,
             (send_command k (helium_send_request k ctx data len)).2)
      ∧ (helium_send k ctx data len).2.txn_seq = (ctx.txn_seq + 1) % 65536) := by
  have retry : ∀ (n : Nat) (c : helium_ctx),
      (send_command k c).1 = send_command_status.send_command_OK →
      ((send_command k c).2.txn.send_res = res_send.res_send_err_nack ∨
        (send_command k c).2.txn.send_res = res_send.res_send_err_channel_access) →
      helium_send_loop k (n + 1) c = helium_send_loop k n (send_command k c).2 := by
    intro n c hst hres
    rcases hsc : send_command k c with ⟨st, c1⟩
    rw [hsc] at hst hres
    simp only at hst hres
    simp only [helium_send_loop, hsc, hst]
    rcases hres with h | h <;> simp [h]
  have hs0 : (helium_send_request k ctx data len).txn_seq = ctx.txn_seq := rfl
  constructor
  · intro h
    have h0 := h 0 (by decide)
    have h1 := h 1 (by decide)
    have h2 := h 2 (by decide)
    simp only [Function.iterate_zero, Function.iterate_succ, Function.comp_apply, id_eq]
      at h0 h1 h2
    have heq : helium_send k ctx data len
        = (helium_send_status.helium_send_ERR_COMMUNICATION,
           (fun c => (send_command k c).2)^[3] (helium_send_request k ctx data len)) := by
      unfold helium_send
      rw [retry 2 _ h0.1 h0.2, retry 1 _ h1.1 h1.2, retry 0 _ h2.1 h2.2]
      rfl
    refine ⟨heq, ?_⟩
    rw [heq]
    simp only [Function.iterate_succ, Function.iterate_zero, Function.comp_apply, id_eq,
      send_command_txn_seq, hs0]
    omega
  · intro h
    have heq : helium_send k ctx data len
        = (helium_send_status.helium_send_ERR_DROPPED,
           (send_command k (helium_send_request k ctx data len)).2) := by
      unfold helium_send
      rcases hsc : send_command k (helium_send_request k ctx data len) with ⟨st, c1⟩
      rw [hsc] at h
      simp only at h
      simp only [helium_send_loop, hsc, h.1, h.2]
      simp
    refine ⟨heq, ?_⟩
    rw [heq]
    simp only [send_command_txn_seq, hs0]


theorem C7_send_retry_bound_witness :
    ((∀ i, i < 3 →
        (send_command env64
          ((fun c => (send_command env64 c).2)^[i]
            (helium_send_request env64 ctx_nack3 (some [1, 2]) 2))).1
          = send_command_status.send_command_OK ∧
        ((send_command env64
          ((fun c => (send_command env64 c).2)^[i]
            (helium_send_request env64 ctx_nack3 (some [1, 2]) 2))).2.txn.send_res
            = res_send.res_send_err_nack ∨
         (send_command env64
          ((fun c => (send_command env64 c).2)^[i]
            (helium_send_request env64 ctx_nack3 (some [1, 2]) 2))).2.txn.send_res
            = res_send.res_send_err_channel_access)) ∧
      helium_send env64 ctx_nack3 (some [1, 2]) 2
          = (helium_send_status.helium_send_ERR_COMMUNICATION,
             (fun c => (send_command env64 c).2)^[3]
               (helium_send_request env64 ctx_nack3 (some [1, 2]) 2))
      ∧ (helium_send env64 ctx_nack3 (some [1, 2]) 2).2.txn_seq
          = (ctx_nack3.txn_seq + 3) % 65536)
    ∧ (((send_command env64 (helium_send_request env64 ctx_dropped (some [1, 2]) 2)).1
          = send_command_status.send_command_OK ∧
        (send_command env64 (helium_send_request env64 ctx_dropped (some [1, 2]) 2)).2.txn.send_res
          = res_send.res_send_err_dropped) ∧
      helium_send env64 ctx_dropped (some [1, 2]) 2
          = (helium_send_status.helium_send_ERR_DROPPED,
             (send_command env64 (helium_send_request env64 ctx_dropped (some [1, 2]) 2)).2)
      ∧ (helium_send env64 ctx_dropped (some [1, 2]) 2).2.txn_seq
          = (ctx_dropped.txn_seq + 1) % 65536) :=
  ⟨⟨by decide!, (C7_send_retry_bound env64 ctx_nack3 (some [1, 2]) 2).1 (by decide!)⟩,
    ⟨by decide!, (C7_send_retry_bound env64 ctx_dropped (some [1, 2]) 2).2 (by decide!)⟩⟩


theorem poll_loop_all_none (k : Env) (data : Option (List Nat)) (len : Nat)
    (used : Option Nat) (n : Nat) :
    ∀ c : helium_ctx,
      (∀ i, i < n + 1 →
        (send_command k ((poll_round k)^[i] c)).1 = send_command_status.send_command_OK ∧
        (send_command k ((poll_round k)^[i] c)).2.txn.poll_res_tag
          = res_poll_tag.res_poll_tag_none) →
      helium_poll_loop k data len used (n + 1) c
        = ⟨helium_poll_status.helium_poll_OK_NO_DATA, data, used,
            (send_command k ((poll_round k)^[n] c)).2⟩ := by
  induction n with
  | zero =>
    intro c h
    have h0 := h 0 (by decide)
    simp only [Function.iterate_zero, id_eq] at h0
    rcases hsc : send_command k c with ⟨st, c1⟩
    rw [hsc] at h0
    simp only at h0
    simp [helium_poll_loop, hsc, h0.1, h0.2]
  | succ n ih =>
    intro c h
    have h0 := h 0 (by omega)
    simp only [Function.iterate_zero, id_eq] at h0
    have hrest := ih (poll_round k c) (by
      intro i hi
      have := h (i + 1) (by omega)
      simpa only [Function.iterate_succ_apply] using this)
    rw [Function.iterate_succ_apply, ← hrest]
    rcases hsc : send_command k c with ⟨st, c1⟩
    rw [hsc] at h0
    simp only at h0
    simp [helium_poll_loop, hsc, h0.1, h0.2, poll_round]

theorem poll_round_txn_seq (k : Env) (n : Nat) (c : helium_ctx) :
    ((poll_round k)^[n] c).txn_seq % 65536 = (c.txn_seq + n) % 65536 := by
  induction n generalizing c with
  | zero => simp
  | succ n ih =>
    rw [Function.iterate_succ_apply, ih]
    have : (poll_round k c).txn_seq = (c.txn_seq + 1) % 65536 := by
      simp [poll_round, send_command_txn_seq]
    rw [this]
    omega

theorem send_command_count_poll_waits (k : Env) (c : helium_ctx) :
    (send_command k c).2.param.waits.count HELIUM_POLL_WAIT_US
      = c.param.waits.count HELIUM_POLL_WAIT_US := by
  obtain ⟨n, hn⟩ := send_command_waits k c
  rw [hn, List.count_append, List.count_replicate]
  simp [HELIUM_POLL_WAIT_US]

theorem poll_round_count_poll_waits (k : Env) (n : Nat) (c : helium_ctx) :
    ((poll_round k)^[n] c).param.waits.count HELIUM_POLL_WAIT_US
      = c.param.waits.count HELIUM_POLL_WAIT_US + n := by
  induction n generalizing c with
  | zero => simp
  | succ n ih =>
    rw [Function.iterate_succ_apply, ih]
    have : (poll_round k c).param.waits.count HELIUM_POLL_WAIT_US
        = c.param.waits.count HELIUM_POLL_WAIT_US + 1 := by
      simp only [poll_round, helium_wait_us, List.count_append]
      rw [send_command_count_poll_waits]
      simp
    rw [this]
    omega

/-- C8. Poll budget: when the send step of `helium_channel_create` succeeds
and each of the `HELIUM_POLL_RETRIES_60S = 120` poll attempts is answered
with `none`, the function returns TIMEOUT after exactly 120 poll round trips:
119 rounds of a round trip followed by `wait_us(HELIUM_POLL_WAIT_US)`, then
the last round trip with no wait after it. -/
theorem C8_poll_budget (k : Env) (ctx : helium_ctx) (name : List Nat) (len channel_id : Nat)
    (c1 : helium_ctx)
    (hsend : helium_send k ctx (some (helium_channel_create_payload k name len).1)
        (helium_channel_create_payload k name len).2
      = (helium_send_status.helium_send_OK, c1))
    (hnone : ∀ i, i < HELIUM_POLL_RETRIES_60S →
      (send_command k ((poll_round k)^[i] (helium_poll_request c1))).1
        = send_command_status.send_command_OK ∧
      (send_command k ((poll_round k)^[i] (helium_poll_request c1))).2.txn.poll_res_tag
        = res_poll_tag.res_poll_tag_none) :
    HELIUM_POLL_RETRIES_60S = 120 ∧ HELIUM_POLL_WAIT_US = 500000
    ∧ helium_channel_create k ctx name len channel_id
        = (helium_channel_create_status.helium_channel_create_ERR_TIMEOUT, channel_id,
           (send_command k ((poll_round k)^[119] (helium_poll_request c1))).2)
    ∧ (helium_channel_create k ctx name len channel_id).2.2.txn_seq
        = (c1.txn_seq + 120) % 65536
    ∧ (helium_channel_create k ctx name len channel_id).2.2.param.waits.count
          HELIUM_POLL_WAIT_US
        = c1.param.waits.count HELIUM_POLL_WAIT_US + 119 := by
  have hloop := poll_loop_all_none k (some (helium_channel_create_payload k name len).1)
    k.HELIUM_MAX_DATA_SIZE (some 0) 119 (helium_poll_request c1) hnone
  have heq : helium_channel_create k ctx name len channel_id
      = (helium_channel_create_status.helium_channel_create_ERR_TIMEOUT, channel_id,
         (send_command k ((poll_round k)^[119] (helium_poll_request c1))).2) := by
    unfold helium_channel_create
    simp only [hsend, helium_poll]
    rw [show HELIUM_POLL_RETRIES_60S = 119 + 1 from rfl, hloop]
  refine ⟨rfl, rfl, heq, ?_, ?_⟩
  · rw [heq]
    simp only [send_command_txn_seq]
    have := poll_round_txn_seq k 119 (helium_poll_request c1)
    have h2 : (helium_poll_request c1).txn_seq = c1.txn_seq := rfl
    rw [h2] at this
    omega
  · rw [heq]
    simp only [send_command_count_poll_waits, poll_round_count_poll_waits]
    rfl


theorem C8_poll_budget_witness :
    helium_send env64 ctx_silent
        (some (helium_channel_create_payload env64 [0x63, 0x68, 0x31] 3).1)
        (helium_channel_create_payload env64 [0x63, 0x68, 0x31] 3).2
      = (helium_send_status.helium_send_OK,
         (helium_send env64 ctx_silent
            (some (helium_channel_create_payload env64 [0x63, 0x68, 0x31] 3).1)
            (helium_channel_create_payload env64 [0x63, 0x68, 0x31] 3).2).2)
    ∧ (∀ i, i < HELIUM_POLL_RETRIES_60S →
        (send_command env64 ((poll_round env64)^[i] (helium_poll_request
          (helium_send env64 ctx_silent
            (some (helium_channel_create_payload env64 [0x63, 0x68, 0x31] 3).1)
            (helium_channel_create_payload env64 [0x63, 0x68, 0x31] 3).2).2))).1
          = send_command_status.send_command_OK ∧
        (send_command env64 ((poll_round env64)^[i] (helium_poll_request
          (helium_send env64 ctx_silent
            (some (helium_channel_create_payload env64 [0x63, 0x68, 0x31] 3).1)
            (helium_channel_create_payload env64 [0x63, 0x68, 0x31] 3).2).2))).2.txn.poll_res_tag
          = res_poll_tag.res_poll_tag_none)
    ∧ (HELIUM_POLL_RETRIES_60S = 120 ∧ HELIUM_POLL_WAIT_US = 500000
      ∧ helium_channel_create env64 ctx_silent [0x63, 0x68, 0x31] 3 0
          = (helium_channel_create_status.helium_channel_create_ERR_TIMEOUT, 0,
             (send_command env64 ((poll_round env64)^[119] (helium_poll_request
               (helium_send env64 ctx_silent
                 (some (helium_channel_create_payload env64 [0x63, 0x68, 0x31] 3).1)
                 (helium_channel_create_payload env64 [0x63, 0x68, 0x31] 3).2).2))).2)
      ∧ (helium_channel_create env64 ctx_silent [0x63, 0x68, 0x31] 3 0).2.2.txn_seq
          = ((helium_send env64 ctx_silent
                 (some (helium_channel_create_payload env64 [0x63, 0x68, 0x31] 3).1)
                 (helium_channel_create_payload env64 [0x63, 0x68, 0x31] 3).2).2.txn_seq
              + 120) % 65536
      ∧ (helium_channel_create env64 ctx_silent [0x63, 0x68, 0x31] 3 0).2.2.param.waits.count
            HELIUM_POLL_WAIT_US
          = (helium_send env64 ctx_silent
                 (some (helium_channel_create_payload env64 [0x63, 0x68, 0x31] 3).1)
                 (helium_channel_create_payload env64 [0x63, 0x68, 0x31] 3).2).2.param.waits.count
              HELIUM_POLL_WAIT_US + 119) :=
  ⟨by decide!, by decide!,
    C8_poll_budget env64 ctx_silent [0x63, 0x68, 0x31] 3 0
      (helium_send env64 ctx_silent
        (some (helium_channel_create_payload env64 [0x63, 0x68, 0x31] 3).1)
        (helium_channel_create_payload env64 [0x63, 0x68, 0x31] 3).2).2
      (by decide!) (by decide!)⟩


/-! ## Claims about the channel payloads -/

/-- C10. Channel create payload: for every name, the bytes that
`helium_channel_create` passes to `helium_send` are `0x8B` followed by the
first `min(len, HELIUM_MAX_CHANNEL_NAME_SIZE)` bytes of the name, `len` the
length of the name, and the length passed is their number; the name `ch1`
gives `8B 'c' 'h' '1'` when the limit is at least 3. -/
theorem C10_channel_create_payload (k : Env) (name : List Nat) :
    helium_channel_create_payload k name name.length
        = (0x8B :: name.take (min name.length k.HELIUM_MAX_CHANNEL_NAME_SIZE),
           1 + min name.length k.HELIUM_MAX_CHANNEL_NAME_SIZE)
    ∧ (helium_channel_create_payload k name name.length).1.length
        = (helium_channel_create_payload k name name.length).2
    ∧ (3 ≤ k.HELIUM_MAX_CHANNEL_NAME_SIZE →
        helium_channel_create_payload k [0x63, 0x68, 0x31] 3
          = ([0x8B, 0x63, 0x68, 0x31], 4)) := by
  have hpay : helium_channel_create_payload k name name.length
      = (0x8B :: name.take (min name.length k.HELIUM_MAX_CHANNEL_NAME_SIZE),
         1 + min name.length k.HELIUM_MAX_CHANNEL_NAME_SIZE) := by
    unfold helium_channel_create_payload
    by_cases h : name.length > k.HELIUM_MAX_CHANNEL_NAME_SIZE
    · simp only [if_pos h, CHANNEL_CREATE]
      rw [Nat.min_eq_right (by omega)]
    · simp only [if_neg h, CHANNEL_CREATE]
      rw [Nat.min_eq_left (by omega)]
  refine ⟨hpay, ?_, ?_⟩
  · rw [hpay]
    simp only [List.length_cons, List.length_take]
    omega
  · intro h3
    unfold helium_channel_create_payload
    rw [if_neg (by omega)]
    rfl

theorem C10_channel_create_payload_witness :
    3 ≤ env64.HELIUM_MAX_CHANNEL_NAME_SIZE
    ∧ helium_channel_create_payload env64 [0x63, 0x68, 0x31] 3
        = ([0x8B, 0x63, 0x68, 0x31], 4) :=
  ⟨by decide, (C10_channel_create_payload env64 [0x63, 0x68, 0x31]).2.2 (by decide)⟩


/-! ## Claims about the channel responses -/

/-- C11. Channel create response classification: once the send step has
succeeded and the poll has delivered the buffer `B` with used length `n`,
`helium_channel_create` returns OK exactly when `B[0] = 0x8D` and `n = 2`,
and then the id is `B[1]`; it returns FAILED when `n ≥ 1` and `B[0] = 0x8E`;
in every other case it returns COMMUNICATION. The caller's id is written only
on OK. -/
theorem C11_channel_create_response (k : Env) (ctx : helium_ctx) (name : List Nat)
    (len channel_id : Nat) (c c1 : helium_ctx) (B : List Nat) (n : Nat)
    (hsend : helium_send k ctx (some (helium_channel_create_payload k name len).1)
        (helium_channel_create_payload k name len).2
      = (helium_send_status.helium_send_OK, c))
    (hpoll : helium_poll k c (some (helium_channel_create_payload k name len).1)
        k.HELIUM_MAX_DATA_SIZE (some 0) HELIUM_POLL_RETRIES_60S
      = ⟨helium_poll_status.helium_poll_OK_DATA, some B, some n, c1⟩) :
    ((helium_channel_create k ctx name len channel_id).1
        = helium_channel_create_status.helium_channel_create_OK
      ↔ B.getD 0 0 = 0x8D ∧ n = 2)
    ∧ (B.getD 0 0 = 0x8D ∧ n = 2 →
        helium_channel_create k ctx name len channel_id
          = (helium_channel_create_status.helium_channel_create_OK, B.getD 1 0, c1))
    ∧ (1 ≤ n ∧ B.getD 0 0 = 0x8E →
        helium_channel_create k ctx name len channel_id
          = (helium_channel_create_status.helium_channel_create_ERR_FAILED, channel_id, c1))
    ∧ (¬ (B.getD 0 0 = 0x8D ∧ n = 2) ∧ ¬ (1 ≤ n ∧ B.getD 0 0 = 0x8E) →
        helium_channel_create k ctx name len channel_id
          = (helium_channel_create_status.helium_channel_create_ERR_COMMUNICATION,
             channel_id, c1)) := by
  have hdef : helium_channel_create k ctx name len channel_id
      = if n < 1 then
          (helium_channel_create_status.helium_channel_create_ERR_COMMUNICATION, channel_id, c1)
        else if B.getD 0 0 = CHANNEL_CREATED then
          if n ≠ 2 then
            (helium_channel_create_status.helium_channel_create_ERR_COMMUNICATION,
              channel_id, c1)
          else (helium_channel_create_status.helium_channel_create_OK, B.getD 1 0, c1)
        else if B.getD 0 0 = CHANNEL_CREATE_FAILED then
          (helium_channel_create_status.helium_channel_create_ERR_FAILED, channel_id, c1)
        else
          (helium_channel_create_status.helium_channel_create_ERR_COMMUNICATION,
            channel_id, c1) := by
    unfold helium_channel_create
    simp only [hsend, hpoll, Option.getD_some]
  have e1 : CHANNEL_CREATED = 0x8D := rfl
  have e2 : CHANNEL_CREATE_FAILED = 0x8E := rfl
  rw [e1, e2] at hdef
  generalize B.getD 0 0 = b0 at hdef ⊢
  generalize B.getD 1 0 = b1 at hdef ⊢
  rw [hdef]
  refine ⟨?_, ?_, ?_, ?_⟩
  · constructor
    · intro h
      split_ifs at h with h1 h2 h3 h4
      constructor
      · assumption
      · omega
    · rintro ⟨h2, h3⟩
      subst h2 h3
      rfl
  · rintro ⟨h2, h3⟩
    subst h2 h3
    rfl
  · rintro ⟨h1, h4⟩
    subst h4
    rw [if_neg (by omega), if_neg (by decide), if_pos rfl]
  · rintro ⟨ha, hb⟩
    split_ifs with h1 h2 h3 h4
    all_goals first
      | rfl
      | (exfalso
         apply ha
         constructor
         · assumption
         · omega)
      | (exfalso
         apply hb
         constructor
         · omega
         · assumption)


theorem C11_channel_create_response_witness :
    (helium_send env64 (ctx_poll_body [0x8D, 0x07])
        (some (helium_channel_create_payload env64 [0x63, 0x68, 0x31] 3).1)
        (helium_channel_create_payload env64 [0x63, 0x68, 0x31] 3).2
      = (helium_send_status.helium_send_OK,
         (helium_send env64 (ctx_poll_body [0x8D, 0x07]) (some [0x8B, 0x63, 0x68, 0x31]) 4).2)
    ∧ helium_poll env64
        (helium_send env64 (ctx_poll_body [0x8D, 0x07]) (some [0x8B, 0x63, 0x68, 0x31]) 4).2
        (some (helium_channel_create_payload env64 [0x63, 0x68, 0x31] 3).1)
        env64.HELIUM_MAX_DATA_SIZE (some 0) HELIUM_POLL_RETRIES_60S
      = ⟨helium_poll_status.helium_poll_OK_DATA, some [0x8D, 0x07, 0x68, 0x31], some 2,
          (helium_channel_create env64 (ctx_poll_body [0x8D, 0x07]) [0x63, 0x68, 0x31] 3 0).2.2⟩
    ∧ helium_channel_create env64 (ctx_poll_body [0x8D, 0x07]) [0x63, 0x68, 0x31] 3 0
      = (helium_channel_create_status.helium_channel_create_OK, 0x07,
         (helium_channel_create env64 (ctx_poll_body [0x8D, 0x07]) [0x63, 0x68, 0x31] 3 0).2.2))
    ∧ (helium_send env64 (ctx_poll_body [0x8E])
        (some (helium_channel_create_payload env64 [0x63, 0x68, 0x31] 3).1)
        (helium_channel_create_payload env64 [0x63, 0x68, 0x31] 3).2
      = (helium_send_status.helium_send_OK,
         (helium_send env64 (ctx_poll_body [0x8E]) (some [0x8B, 0x63, 0x68, 0x31]) 4).2)
    ∧ helium_poll env64
        (helium_send env64 (ctx_poll_body [0x8E]) (some [0x8B, 0x63, 0x68, 0x31]) 4).2
        (some (helium_channel_create_payload env64 [0x63, 0x68, 0x31] 3).1)
        env64.HELIUM_MAX_DATA_SIZE (some 0) HELIUM_POLL_RETRIES_60S
      = ⟨helium_poll_status.helium_poll_OK_DATA, some [0x8E, 0x63, 0x68, 0x31], some 1,
          (helium_channel_create env64 (ctx_poll_body [0x8E]) [0x63, 0x68, 0x31] 3 9).2.2⟩
    ∧ helium_channel_create env64 (ctx_poll_body [0x8E]) [0x63, 0x68, 0x31] 3 9
      = (helium_channel_create_status.helium_channel_create_ERR_FAILED, 9,
         (helium_channel_create env64 (ctx_poll_body [0x8E]) [0x63, 0x68, 0x31] 3 9).2.2)) :=
  ⟨⟨by decide!, by decide!,
      (C11_channel_create_response env64 (ctx_poll_body [0x8D, 0x07]) [0x63, 0x68, 0x31] 3 0
        (helium_send env64 (ctx_poll_body [0x8D, 0x07]) (some [0x8B, 0x63, 0x68, 0x31]) 4).2
        (helium_channel_create env64 (ctx_poll_body [0x8D, 0x07]) [0x63, 0x68, 0x31] 3 0).2.2
        [0x8D, 0x07, 0x68, 0x31] 2 (by decide!) (by decide!)).2.1 ⟨by decide, rfl⟩⟩,
    ⟨by decide!, by decide!,
      (C11_channel_create_response env64 (ctx_poll_body [0x8E]) [0x63, 0x68, 0x31] 3 9
        (helium_send env64 (ctx_poll_body [0x8E]) (some [0x8B, 0x63, 0x68, 0x31]) 4).2
        (helium_channel_create env64 (ctx_poll_body [0x8E]) [0x63, 0x68, 0x31] 3 9).2.2
        [0x8E, 0x63, 0x68, 0x31] 1 (by decide!) (by decide!)).2.2.1 ⟨by decide, by decide⟩⟩⟩


/-- C12. Channel send response classification: once the send step has
succeeded and the poll has delivered the buffer `B` with used length `n`,
`helium_channel_send` returns OK exactly when `B[0] = 0x90` and `n = 2`, and
then a supplied result slot holds `B[1]`; it returns NOT_FOUND when `n ≥ 1`
and `B[0] = 0x8F`; in every other case it returns COMMUNICATION. The result
slot is written only on OK. -/
theorem C12_channel_send_response (k : Env) (ctx : helium_ctx) (channel_id : Nat)
    (data : List Nat) (len : Nat) (result : Option Nat) (c c1 : helium_ctx) (B : List Nat)
    (n : Nat)
    (hsend : helium_send k ctx (some (helium_channel_send_payload k channel_id data len).1)
        (helium_channel_send_payload k channel_id data len).2
      = (helium_send_status.helium_send_OK, c))
    (hpoll : helium_poll k c (some (helium_channel_send_payload k channel_id data len).1)
        k.HELIUM_MAX_DATA_SIZE (some 0) HELIUM_POLL_RETRIES_60S
      = ⟨helium_poll_status.helium_poll_OK_DATA, some B, some n, c1⟩) :
    ((helium_channel_send k ctx channel_id data len result).1
        = helium_channel_send_status.helium_channel_send_OK
      ↔ B.getD 0 0 = 0x90 ∧ n = 2)
    ∧ (B.getD 0 0 = 0x90 ∧ n = 2 →
        helium_channel_send k ctx channel_id data len result
          = (helium_channel_send_status.helium_channel_send_OK,
             result.map (fun _ => B.getD 1 0), c1))
    ∧ (1 ≤ n ∧ B.getD 0 0 = 0x8F →
        helium_channel_send k ctx channel_id data len result
          = (helium_channel_send_status.helium_channel_send_ERR_NOT_FOUND, result, c1))
    ∧ (¬ (B.getD 0 0 = 0x90 ∧ n = 2) ∧ ¬ (1 ≤ n ∧ B.getD 0 0 = 0x8F) →
        helium_channel_send k ctx channel_id data len result
          = (helium_channel_send_status.helium_channel_send_ERR_COMMUNICATION,
             result, c1)) := by
  have hdef : helium_channel_send k ctx channel_id data len result
      = if n < 1 then
          (helium_channel_send_status.helium_channel_send_ERR_COMMUNICATION, result, c1)
        else if B.getD 0 0 = CHANNEL_SEND_RESULT then
          if n ≠ 2 then
            (helium_channel_send_status.helium_channel_send_ERR_COMMUNICATION, result, c1)
          else (helium_channel_send_status.helium_channel_send_OK,
                 result.map (fun _ => B.getD 1 0), c1)
        else if B.getD 0 0 = CHANNEL_NOT_FOUND then
          (helium_channel_send_status.helium_channel_send_ERR_NOT_FOUND, result, c1)
        else
          (helium_channel_send_status.helium_channel_send_ERR_COMMUNICATION, result, c1) := by
    unfold helium_channel_send
    simp only [hsend, hpoll, Option.getD_some]
  have e1 : CHANNEL_SEND_RESULT = 0x90 := rfl
  have e2 : CHANNEL_NOT_FOUND = 0x8F := rfl
  rw [e1, e2] at hdef
  generalize B.getD 0 0 = b0 at hdef ⊢
  generalize B.getD 1 0 = b1 at hdef ⊢
  rw [hdef]
  refine ⟨?_, ?_, ?_, ?_⟩
  · constructor
    · intro h
      split_ifs at h with h1 h2 h3 h4
      constructor
      · assumption
      · omega
    · rintro ⟨h2, h3⟩
      subst h2 h3
      rfl
  · rintro ⟨h2, h3⟩
    subst h2 h3
    rfl
  · rintro ⟨h1, h4⟩
    subst h4
    rw [if_neg (by omega), if_neg (by decide), if_pos rfl]
  · rintro ⟨ha, hb⟩
    split_ifs with h1 h2 h3 h4
    all_goals first
      | rfl
      | (exfalso
         apply ha
         constructor
         · assumption
         · omega)
      | (exfalso
         apply hb
         constructor
         · omega
         · assumption)

theorem C12_channel_send_response_witness :
    helium_send env64 (ctx_poll_body [0x90, 0x2B])
        (some (helium_channel_send_payload env64 7 [0x01, 0x02] 2).1)
        (helium_channel_send_payload env64 7 [0x01, 0x02] 2).2
      = (helium_send_status.helium_send_OK,
         (helium_send env64 (ctx_poll_body [0x90, 0x2B]) (some [0x8C, 7, 0, 0x01, 0x02]) 5).2)
    ∧ helium_poll env64
        (helium_send env64 (ctx_poll_body [0x90, 0x2B]) (some [0x8C, 7, 0, 0x01, 0x02]) 5).2
        (some (helium_channel_send_payload env64 7 [0x01, 0x02] 2).1)
        env64.HELIUM_MAX_DATA_SIZE (some 0) HELIUM_POLL_RETRIES_60S
      = ⟨helium_poll_status.helium_poll_OK_DATA, some [0x90, 0x2B, 0, 0x01, 0x02], some 2,
          (helium_channel_send env64 (ctx_poll_body [0x90, 0x2B]) 7 [0x01, 0x02] 2
            (some 0)).2.2⟩
    ∧ helium_channel_send env64 (ctx_poll_body [0x90, 0x2B]) 7 [0x01, 0x02] 2 (some 0)
      = (helium_channel_send_status.helium_channel_send_OK, some 0x2B,
         (helium_channel_send env64 (ctx_poll_body [0x90, 0x2B]) 7 [0x01, 0x02] 2
            (some 0)).2.2) :=
  ⟨by decide!, by decide!,
    (C12_channel_send_response env64 (ctx_poll_body [0x90, 0x2B]) 7 [0x01, 0x02] 2 (some 0)
      (helium_send env64 (ctx_poll_body [0x90, 0x2B]) (some [0x8C, 7, 0, 0x01, 0x02]) 5).2
      (helium_channel_send env64 (ctx_poll_body [0x90, 0x2B]) 7 [0x01, 0x02] 2 (some 0)).2.2
      [0x90, 0x2B, 0, 0x01, 0x02] 2 (by decide!) (by decide!)).2.1 ⟨by decide, rfl⟩⟩


/-! ## Frame reader: invariants of the switch -/

/-- The loop of `_read_frame` is the wait, the read of one byte and the
switch `read_switch`, repeated. -/
theorem read_loop_unfold (k : Env) (fuel : Nat) (p : Port) (s : ReadSt) :
    _read_frame_loop k (fuel + 1) p s
      = match _wait_for_byte p SERIAL_WAIT_TIMEOUT with
        | (false, p1) => some ⟨0, p1, s.frame⟩
        | (true, p1) =>
          match helium_serial_getc p1 with
          | (none, p2) => some ⟨size_t_neg k 3, p2, s.frame⟩
          | (some ch, p2) =>
            match read_switch k s ch with
            | Sum.inl s2 => _read_frame_loop k fuel p2 s2
            | Sum.inr ret => some ⟨ret, p2, s.frame⟩ := by
  rcases hwb : _wait_for_byte p SERIAL_WAIT_TIMEOUT with ⟨ok, p1⟩
  cases ok with
  | false => simp only [_read_frame_loop, hwb]
  | true =>
    rcases hgc : helium_serial_getc p1 with ⟨och, p2⟩
    cases och with
    | none => simp only [_read_frame_loop, hwb, hgc]
    | some ch =>
      rcases hst : s.state with _ | _ | _ | _ | _ <;>
        simp only [_read_frame_loop, hwb, hgc, hst, read_switch] <;>
        split <;> rfl

/-- Every property of the local variables that the switch preserves holds
when `_read_frame` returns: the function returns with local variables `s'`
that have the property, the stored bytes are those of `s'`, and the value is
the timeout value, the read error, or what the switch returns from `s'`. -/
theorem read_loop_final (k : Env) (I : ReadSt → Prop)
    (hI : ∀ s ch s2, I s → ch < 256 → read_switch k s ch = Sum.inl s2 → I s2)
    (fuel : Nat) :
    ∀ (p : Port) (s : ReadSt), p.rx.length < fuel → I s →
      ∃ r s', _read_frame_loop k fuel p s = some r ∧ I s' ∧ r.frame = s'.frame ∧
        (r.ret = 0 ∨ r.ret = size_t_neg k 3 ∨
          ∃ ch, ch < 256 ∧ read_switch k s' ch = Sum.inr r.ret) := by
  induction fuel with
  | zero => intro p s h; exact absurd h (Nat.not_lt_zero _)
  | succ fuel ih =>
    intro p s hlt hs
    have hw := wait_for_byte_spec SERIAL_WAIT_TIMEOUT p
    rcases hwb : _wait_for_byte p SERIAL_WAIT_TIMEOUT with ⟨ok, p1⟩
    rw [hwb] at hw
    obtain ⟨_, _, _, hw4, hw5⟩ := hw
    simp only at hw4 hw5
    cases ok with
    | false =>
      exact ⟨⟨0, p1, s.frame⟩, s, by simp only [read_loop_unfold, hwb], hs, rfl, Or.inl rfl⟩
    | true =>
      have hg := getc_spec p1
      rcases hgc : helium_serial_getc p1 with ⟨och, p2⟩
      rw [hgc] at hg
      obtain ⟨_, _, _, hg4, hg5⟩ := hg
      simp only at hg4 hg5
      have hlen : p2.rx.length < fuel := by
        have := hg4 (hw5 rfl)
        omega
      cases och with
      | none =>
        exact ⟨⟨size_t_neg k 3, p2, s.frame⟩, s, by simp only [read_loop_unfold, hwb, hgc],
          hs, rfl, Or.inr (Or.inl rfl)⟩
      | some ch =>
        have hch : ch < 256 := hg5 ch rfl
        rcases hsw : read_switch k s ch with s2 | ret
        · have hstep : _read_frame_loop k (fuel + 1) p s = _read_frame_loop k fuel p2 s2 := by
            simp only [read_loop_unfold, hwb, hgc, hsw]
          rw [hstep]
          exact ih p2 s2 hlen (hI s ch s2 hs hch hsw)
        · exact ⟨⟨ret, p2, s.frame⟩, s, by simp only [read_loop_unfold, hwb, hgc, hsw],
            hs, rfl, Or.inr (Or.inr ⟨ch, hch, hsw⟩)⟩


/-- What `_read_frame` returns into a buffer of `cap` bytes: the timeout
value, one of the three error values, or a length of at most `cap` together
with exactly that many stored bytes. -/
theorem read_frame_result (k : Env) (p : Port) (cap : Nat) (hcap : cap < 2 ^ k.size_bits) :
    ∃ r, _read_frame k p cap = some r ∧
      (r.ret = 0 ∨ r.ret = size_t_neg k 1 ∨ r.ret = size_t_neg k 2 ∨ r.ret = size_t_neg k 3 ∨
        (1 ≤ r.ret ∧ r.ret ≤ cap ∧ r.frame.length = r.ret)) := by
  have hfin := read_loop_final k
    (fun s =>
      ((s.state = decode_state.sof ∨ s.state = decode_state.len_msb ∨
          s.state = decode_state.len_lsb) → s.len = cap ∧ s.frame = []) ∧
      (s.state = decode_state.payload → s.payload_size ≤ cap ∧
        ((1 ≤ s.len ∧ s.len + s.frame.length = s.payload_size) ∨ s.payload_size = 0)) ∧
      (s.state = decode_state.checksum → s.payload_size ≤ cap ∧
        (s.frame.length = s.payload_size ∨ s.payload_size = 0)))
    (by
      intro s ch s2 hs hch hsw
      obtain ⟨h1, h2, h3⟩ := hs
      unfold read_switch at hsw
      rcases hst : s.state with _ | _ | _ | _ | _ <;> rw [hst] at hsw <;> simp only at hsw
      · -- sof
        have := h1 (Or.inl hst)
        split at hsw <;> cases hsw <;> simp [hst, this]
      · -- len_msb
        have := h1 (Or.inr (Or.inl hst))
        cases hsw
        simp [this]
      · -- len_lsb
        have := h1 (Or.inr (Or.inr hst))
        split at hsw
        · cases hsw
        · rename_i hov
          cases hsw
          simp only [this.1] at hov
          simp [this]
          omega
      · -- payload
        obtain ⟨hle, hcase⟩ := h2 hst
        split at hsw
        · rename_i hz
          cases hsw
          simp
          refine ⟨hle, ?_⟩
          rcases hcase with ⟨hpos, hsum⟩ | h0
          · left
            have hd := size_dec k (s.len - 1) (by omega)
            have : s.len - 1 + 1 = s.len := by omega
            rw [this] at hd
            omega
          · exact Or.inr h0
        · rename_i hz
          cases hsw
          simp [hst]
          refine ⟨hle, ?_⟩
          rcases hcase with ⟨hpos, hsum⟩ | h0
          · left
            have hd := size_dec k (s.len - 1) (by omega)
            have : s.len - 1 + 1 = s.len := by omega
            rw [this] at hd
            rw [hd] at hz ⊢
            omega
          · exact Or.inr h0
      · -- checksum
        split at hsw <;> cases hsw)
    (p.rx.length + 1) p
    { state := decode_state.sof, payload_size := 0, payload_checksum := 0, len := cap,
      frame := [] }
    (Nat.lt_succ_self _) (by simp)
  obtain ⟨r, s', hr, ⟨h1, h2, h3⟩, hfr, hret⟩ := hfin
  refine ⟨r, hr, ?_⟩
  rcases hret with h | h | ⟨ch, hch, hsw⟩
  · exact Or.inl h
  · exact Or.inr (Or.inr (Or.inr (Or.inl h)))
  · unfold read_switch at hsw
    rcases hst : s'.state with _ | _ | _ | _ | _ <;> rw [hst] at hsw <;> simp only at hsw
    · split at hsw <;> cases hsw
    · cases hsw
    · split at hsw
      · exact Or.inr (Or.inl (Sum.inr.inj hsw).symm)
      · cases hsw
    · split at hsw <;> cases hsw
    · obtain ⟨hle, hcase⟩ := h3 hst
      split at hsw
      · have hret : s'.payload_size = r.ret := Sum.inr.inj hsw
        by_cases h0 : s'.payload_size = 0
        · exact Or.inl (hret ▸ h0)
        · right; right; right; right
          rcases hcase with hc | hc
          · exact ⟨by omega, by omega, by rw [hfr]; omega⟩
          · exact absurd hc h0
      · exact Or.inr (Or.inr (Or.inl (Sum.inr.inj hsw).symm))


/-! ## Claims about the transaction engine: outcomes -/

theorem putc_cases (p : Port) (ch : Nat) :
    ((helium_serial_putc p ch).1 = true ∧ (helium_serial_putc p ch).2.tx = p.tx ++ [ch % 256])
    ∨ (helium_serial_putc p ch).1 = false := by
  unfold helium_serial_putc
  rcases p.putc_ok with _ | ⟨b, rest⟩
  · simp
  · cases b <;> simp

theorem write_frame_loop_cases (k : Env) (S : List Nat) :
    ∀ (p : Port) (written checksum : Nat), (∀ b ∈ S, b < 256) → checksum < 256 →
      ((_write_frame_loop k S p written checksum).1 = written + S.length ∧
        (_write_frame_loop k S p written checksum).2.tx
          = p.tx ++ (S ++ [0xFF - (checksum + S.sum) % 256]))
      ∨ (_write_frame_loop k S p written checksum).1 = size_t_neg k 1 := by
  induction S with
  | nil =>
    intro p written checksum _ hc
    rcases hpc : helium_serial_putc p (0xFF - checksum) with ⟨ok, p1⟩
    have hcase := putc_cases p (0xFF - checksum)
    rw [hpc] at hcase
    cases ok with
    | false =>
      right
      simp only [_write_frame_loop, hpc]
    | true =>
      left
      rcases hcase with ⟨_, htx⟩ | h
      · simp only at htx
        simp only [_write_frame_loop, hpc, htx]
        have h1 : (0xFF - checksum) % 256 = 0xFF - checksum := by omega
        have h2 : checksum % 256 = checksum := by omega
        simp [h1, h2]
      · simp at h
  | cons b S ih =>
    intro p written checksum hS hc
    have hb : b < 256 := hS b (by simp)
    have hS2 : ∀ x ∈ S, x < 256 := fun x hx => hS x (by simp [hx])
    rcases hpc : helium_serial_putc p (to_uint8 (to_int8 b)) with ⟨ok, p1⟩
    have hcase := putc_cases p (to_uint8 (to_int8 b))
    rw [hpc] at hcase
    cases ok with
    | false =>
      right
      simp only [_write_frame_loop, hpc]
    | true =>
      rcases hcase with ⟨_, htx⟩ | h
      · simp only at htx
        have hrec := ih p1 (written + 1) (to_uint8 ((checksum : Int) + to_int8 b)) hS2
          (by rw [to_uint8_add_to_int8]; exact Nat.mod_lt _ (by decide))
        simp only [_write_frame_loop, hpc]
        rcases hrec with ⟨h1, h2⟩ | h
        · left
          refine ⟨by rw [h1, List.length_cons]; omega, ?_⟩
          rw [h2, htx, to_uint8_to_int8, to_uint8_add_to_int8, Nat.mod_eq_of_lt hb]
          simp [Nat.add_assoc, Nat.mod_eq_of_lt hb]
        · exact Or.inr h
      · simp at h

/-- The frame writer either transmits the whole frame and returns the number
of payload bytes, or returns `-1`. -/
theorem write_frame_cases (k : Env) (p : Port) (S : List Nat) (hS : ∀ b ∈ S, b < 256)
    (hne : S ≠ []) :
    ((_write_frame k p S).1 = S.length ∧
      (_write_frame k p S).2.tx
        = p.tx ++ ([0x7E, S.length / 256 % 256, S.length % 256] ++ S
            ++ [0xFF - S.sum % 256]))
    ∨ (_write_frame k p S).1 = size_t_neg k 1 := by
  have hlen : ¬ S.length = 0 := fun h => hne (List.length_eq_zero.mp h)
  rcases h1 : helium_serial_putc p SOF_CHAR with ⟨ok1, p1⟩
  have c1 := putc_cases p SOF_CHAR
  rw [h1] at c1
  cases ok1 with
  | false =>
    right
    simp only [_write_frame, if_neg hlen, h1]
  | true =>
    rcases h2 : helium_serial_putc p1 (S.length / 2 ^ 8) with ⟨ok2, p2⟩
    have c2 := putc_cases p1 (S.length / 2 ^ 8)
    rw [h2] at c2
    cases ok2 with
    | false =>
      right
      simp only [_write_frame, if_neg hlen, h1, h2]
    | true =>
      rcases h3 : helium_serial_putc p2 (S.length % 256) with ⟨ok3, p3⟩
      have c3 := putc_cases p2 (S.length % 256)
      rw [h3] at c3
      cases ok3 with
      | false =>
        right
        simp only [_write_frame, if_neg hlen, h1, h2, h3]
      | true =>
        simp only [_write_frame, if_neg hlen, h1, h2, h3]
        rcases write_frame_loop_cases k S p3 0 0 hS (by decide) with ⟨g1, g2⟩ | g
        · left
          refine ⟨by rw [g1]; omega, ?_⟩
          rcases c1 with ⟨_, t1⟩ | h
          · rcases c2 with ⟨_, t2⟩ | h
            · rcases c3 with ⟨_, t3⟩ | h
              · simp only at t1 t2 t3
                rw [g2, t3, t2, t1]
                simp [SOF_CHAR]
              · simp at h
            · simp at h
          · simp at h
        · exact Or.inr g

theorem size_t_neg_small (k : Env) (j : Nat) (hj : j ≤ 3) (h1 : 1 ≤ j)
    (hw : 3 ≤ k.size_bits) : size_t_neg k j = 2 ^ k.size_bits - j := by
  have h8 : 2 ^ 3 ≤ 2 ^ k.size_bits := Nat.pow_le_pow_right (by decide) hw
  have h8' : (8 : Nat) ≤ 2 ^ k.size_bits := h8
  have e1 : j % 2 ^ k.size_bits = j := Nat.mod_eq_of_lt (by omega)
  unfold size_t_neg
  rw [e1]
  exact Nat.mod_eq_of_lt (by omega)

/-- The cast `(int)` of an error value of `_read_frame` is negative. -/
theorem to_int_size_t_neg (k : Env) (j : Nat) (hj : j ≤ 3) (h1 : 1 ≤ j)
    (h3 : 3 ≤ k.int_bits) (hle : k.int_bits ≤ k.size_bits) :
    to_int k (size_t_neg k j) = -(j : Int) := by
  have hA : 2 ^ k.int_bits = 2 * 2 ^ (k.int_bits - 1) := by
    rw [← Nat.pow_succ']
    congr 1
    omega
  have hH : 2 ^ 2 ≤ 2 ^ (k.int_bits - 1) := Nat.pow_le_pow_right (by decide) (by omega)
  have hH' : (4 : Nat) ≤ 2 ^ (k.int_bits - 1) := hH
  have hM : 2 ^ k.size_bits = 2 ^ k.int_bits * 2 ^ (k.size_bits - k.int_bits) := by
    rw [← Nat.pow_add]
    congr 1
    omega
  have hQ : 1 ≤ 2 ^ (k.size_bits - k.int_bits) := Nat.one_le_two_pow
  obtain ⟨q, hq⟩ : ∃ q, 2 ^ (k.size_bits - k.int_bits) = q + 1 := ⟨_, (Nat.sub_add_cancel hQ).symm⟩
  rw [hq, Nat.mul_add, Nat.mul_one] at hM
  have hmod : (2 ^ k.size_bits - j) % 2 ^ k.int_bits = 2 ^ k.int_bits - j := by
    have : 2 ^ k.size_bits - j = 2 ^ k.int_bits * q + (2 ^ k.int_bits - j) := by omega
    rw [this, Nat.mul_add_mod, Nat.mod_eq_of_lt (by omega)]
  rw [size_t_neg_small k j hj h1 (by omega)]
  unfold to_int
  rw [hmod, if_neg (by omega)]
  omega

/-- The cast `(int)` keeps a length that is below `2 ^ (int_bits - 1)`. -/
theorem to_int_small (k : Env) (n : Nat) (h : n < 2 ^ (k.int_bits - 1)) (h1 : 1 ≤ k.int_bits) :
    to_int k n = (n : Int) := by
  have hA : 2 ^ k.int_bits = 2 * 2 ^ (k.int_bits - 1) := by
    rw [← Nat.pow_succ']
    congr 1
    omega
  unfold to_int
  rw [Nat.mod_eq_of_lt (by omega), if_pos h]

/-- The test `(int)len <= 0` of `send_command` holds exactly for the timeout
value and the three error values of `_read_frame`, on a platform whose `int`
has at least 3 bits and at most the width of `size_t`, with a buffer smaller
than `2 ^ (int_bits - 1)` bytes. -/
theorem read_failed_iff (k : Env) (p : Port) (r : ReadResult) (h3 : 3 ≤ k.int_bits)
    (hle : k.int_bits ≤ k.size_bits) (hbuf : k.BUF_SIZE < 2 ^ (k.int_bits - 1))
    (hr : _read_frame k p k.BUF_SIZE = some r) :
    to_int k r.ret ≤ 0 ↔
      (r.ret = 0 ∨ r.ret = size_t_neg k 1 ∨ r.ret = size_t_neg k 2 ∨
        r.ret = size_t_neg k 3) := by
  have hpow : 2 ^ (k.int_bits - 1) ≤ 2 ^ k.size_bits :=
    Nat.pow_le_pow_right (by decide) (by omega)
  have hA : 2 ^ k.int_bits = 2 * 2 ^ (k.int_bits - 1) := by
    rw [← Nat.pow_succ']
    congr 1
    omega
  have hAM : 2 ^ k.int_bits ≤ 2 ^ k.size_bits := Nat.pow_le_pow_right (by decide) hle
  have hH : 2 ^ 2 ≤ 2 ^ (k.int_bits - 1) := Nat.pow_le_pow_right (by decide) (by omega)
  have hH' : (4 : Nat) ≤ 2 ^ (k.int_bits - 1) := hH
  obtain ⟨r', hr', hcases⟩ := read_frame_result k p k.BUF_SIZE (by omega)
  rw [hr] at hr'
  cases hr'
  have hn1 := to_int_size_t_neg k 1 (by decide) (by decide) h3 hle
  have hn2 := to_int_size_t_neg k 2 (by decide) (by decide) h3 hle
  have hn3 := to_int_size_t_neg k 3 (by decide) (by decide) h3 hle
  have hs1 := size_t_neg_small k 1 (by decide) (by decide) (by omega)
  have hs2 := size_t_neg_small k 2 (by decide) (by decide) (by omega)
  have hs3 := size_t_neg_small k 3 (by decide) (by decide) (by omega)
  rcases hcases with h | h | h | h | ⟨hpos, hcap, _⟩
  · rw [h, to_int_small k 0 (by omega) (by omega)]
    simp
  · rw [h, hn1]
    simp
  · rw [h, hn2]
    simp
  · rw [h, hn3]
    simp
  · rw [to_int_small k r.ret (by omega) (by omega)]
    constructor
    · intro hneg
      omega
    · intro hfail
      rw [hs1, hs2, hs3] at hfail
      omega


/-- C13. Transaction engine outcome. With `c'` the context after the sequence
assignment: `send_command` returns ENCODE when the encoder fails, and then no
byte is written; otherwise COMMUNICATION when `_write_frame` does not return
the number of encoded bytes, or when `_read_frame` returns the timeout value
or the overflow, checksum or read error, and then the record is the one
before the read, the decoder not run; otherwise DECODE when the decoder
fails; and OK exactly when all four steps succeed. When `_write_frame`
returns the number of encoded bytes the whole frame has been transmitted, and
otherwise it has returned `-1`. The platform has an `int`
of at least 3 bits, no wider than `size_t`, and the buffer has fewer than
`2 ^ (int_bits - 1)` bytes. -/
theorem C13_send_command_outcome (k : Env) (c : helium_ctx) (h3 : 3 ≤ k.int_bits)
    (hle : k.int_bits ≤ k.size_bits) (hbuf : k.BUF_SIZE < 2 ^ (k.int_bits - 1)) :
    (k.encode_txn k.BUF_SIZE (send_command_seq c).txn = none →
      send_command k c
        = (send_command_status.send_command_ERR_ENCODE, send_command_seq c)
      ∧ (send_command k c).2.param = c.param)
    ∧ (∀ e, k.encode_txn k.BUF_SIZE (send_command_seq c).txn = some e →
        (_write_frame k c.param e).1 ≠ e.length →
        send_command k c
          = (send_command_status.send_command_ERR_COMMUNICATION,
             { send_command_seq c with param := (_write_frame k c.param e).2 }))
    ∧ (∀ e r, k.encode_txn k.BUF_SIZE (send_command_seq c).txn = some e →
        (_write_frame k c.param e).1 = e.length →
        _read_frame k (_write_frame k c.param e).2 k.BUF_SIZE = some r →
        (r.ret = 0 ∨ r.ret = size_t_neg k 1 ∨ r.ret = size_t_neg k 2 ∨
          r.ret = size_t_neg k 3) →
        send_command k c
          = (send_command_status.send_command_ERR_COMMUNICATION,
             { send_command_seq c with param := r.port }))
    ∧ (∀ e r t, k.encode_txn k.BUF_SIZE (send_command_seq c).txn = some e →
        (_write_frame k c.param e).1 = e.length →
        _read_frame k (_write_frame k c.param e).2 k.BUF_SIZE = some r →
        ¬ (r.ret = 0 ∨ r.ret = size_t_neg k 1 ∨ r.ret = size_t_neg k 2 ∨
          r.ret = size_t_neg k 3) →
        k.decode_txn (r.frame.take r.ret) (send_command_seq c).txn = (false, t) →
        send_command k c
          = (send_command_status.send_command_ERR_DECODE,
             { send_command_seq c with param := r.port, txn := t }))
    ∧ (∀ e r t, k.encode_txn k.BUF_SIZE (send_command_seq c).txn = some e →
        (_write_frame k c.param e).1 = e.length →
        _read_frame k (_write_frame k c.param e).2 k.BUF_SIZE = some r →
        ¬ (r.ret = 0 ∨ r.ret = size_t_neg k 1 ∨ r.ret = size_t_neg k 2 ∨
          r.ret = size_t_neg k 3) →
        k.decode_txn (r.frame.take r.ret) (send_command_seq c).txn = (true, t) →
        send_command k c
          = (send_command_status.send_command_OK,
             { send_command_seq c with param := r.port, txn := t }))
    ∧ (∀ e, e ≠ [] → (∀ b ∈ e, b < 256) → e.length ≤ k.BUF_SIZE →
        ((_write_frame k c.param e).1 = e.length →
          (_write_frame k c.param e).2.tx
            = c.param.tx ++ ([0x7E, e.length / 256 % 256, e.length % 256] ++ e
                ++ [0xFF - e.sum % 256]))
        ∧ ((_write_frame k c.param e).1 ≠ e.length →
          (_write_frame k c.param e).1 = size_t_neg k 1))
    ∧ ((send_command k c).1 = send_command_status.send_command_OK ↔
        ∃ e r t, k.encode_txn k.BUF_SIZE (send_command_seq c).txn = some e ∧
          (_write_frame k c.param e).1 = e.length ∧
          _read_frame k (_write_frame k c.param e).2 k.BUF_SIZE = some r ∧
          ¬ (r.ret = 0 ∨ r.ret = size_t_neg k 1 ∨ r.ret = size_t_neg k 2 ∨
            r.ret = size_t_neg k 3) ∧
          k.decode_txn (r.frame.take r.ret) (send_command_seq c).txn = (true, t)) := by
  have hp : (send_command_seq c).param = c.param := rfl
  have p1 : k.encode_txn k.BUF_SIZE (send_command_seq c).txn = none →
      send_command k c
        = (send_command_status.send_command_ERR_ENCODE, send_command_seq c) := by
    intro henc
    simp only [send_command, henc]
  have p2 : ∀ e, k.encode_txn k.BUF_SIZE (send_command_seq c).txn = some e →
      (_write_frame k c.param e).1 ≠ e.length →
      send_command k c
        = (send_command_status.send_command_ERR_COMMUNICATION,
           { send_command_seq c with param := (_write_frame k c.param e).2 }) := by
    intro e henc hw
    simp only [send_command, henc, hp, if_pos hw]
  have p3 : ∀ e r, k.encode_txn k.BUF_SIZE (send_command_seq c).txn = some e →
      (_write_frame k c.param e).1 = e.length →
      _read_frame k (_write_frame k c.param e).2 k.BUF_SIZE = some r →
      (r.ret = 0 ∨ r.ret = size_t_neg k 1 ∨ r.ret = size_t_neg k 2 ∨
        r.ret = size_t_neg k 3) →
      send_command k c
        = (send_command_status.send_command_ERR_COMMUNICATION,
           { send_command_seq c with param := r.port }) := by
    intro e r henc hw hr hfail
    have hint := (read_failed_iff k _ r h3 hle hbuf hr).mpr hfail
    simp only [send_command, henc, hp, hw, ne_eq, not_true_eq_false, if_false, hr, if_pos hint]
  have p4 : ∀ e r t, k.encode_txn k.BUF_SIZE (send_command_seq c).txn = some e →
      (_write_frame k c.param e).1 = e.length →
      _read_frame k (_write_frame k c.param e).2 k.BUF_SIZE = some r →
      ¬ (r.ret = 0 ∨ r.ret = size_t_neg k 1 ∨ r.ret = size_t_neg k 2 ∨
        r.ret = size_t_neg k 3) →
      k.decode_txn (r.frame.take r.ret) (send_command_seq c).txn = (false, t) →
      send_command k c
        = (send_command_status.send_command_ERR_DECODE,
           { send_command_seq c with param := r.port, txn := t }) := by
    intro e r t henc hw hr hok hdec
    have hint : ¬ to_int k r.ret ≤ 0 := fun h => hok ((read_failed_iff k _ r h3 hle hbuf hr).mp h)
    simp only [send_command, henc, hp, hw, ne_eq, not_true_eq_false, if_false, hr,
      if_neg hint, hdec]
  have p5 : ∀ e r t, k.encode_txn k.BUF_SIZE (send_command_seq c).txn = some e →
      (_write_frame k c.param e).1 = e.length →
      _read_frame k (_write_frame k c.param e).2 k.BUF_SIZE = some r →
      ¬ (r.ret = 0 ∨ r.ret = size_t_neg k 1 ∨ r.ret = size_t_neg k 2 ∨
        r.ret = size_t_neg k 3) →
      k.decode_txn (r.frame.take r.ret) (send_command_seq c).txn = (true, t) →
      send_command k c
        = (send_command_status.send_command_OK,
           { send_command_seq c with param := r.port, txn := t }) := by
    intro e r t henc hw hr hok hdec
    have hint : ¬ to_int k r.ret ≤ 0 := fun h => hok ((read_failed_iff k _ r h3 hle hbuf hr).mp h)
    simp only [send_command, henc, hp, hw, ne_eq, not_true_eq_false, if_false, hr,
      if_neg hint, hdec]
  have p6 : ∀ e, e ≠ [] → (∀ b ∈ e, b < 256) → e.length ≤ k.BUF_SIZE →
      ((_write_frame k c.param e).1 = e.length →
        (_write_frame k c.param e).2.tx
          = c.param.tx ++ ([0x7E, e.length / 256 % 256, e.length % 256] ++ e
              ++ [0xFF - e.sum % 256]))
      ∧ ((_write_frame k c.param e).1 ≠ e.length →
        (_write_frame k c.param e).1 = size_t_neg k 1) := by
    intro e hne hbytes hfit
    have hA : 2 ^ k.int_bits = 2 * 2 ^ (k.int_bits - 1) := by
      rw [← Nat.pow_succ']
      congr 1
      omega
    have hAM : 2 ^ k.int_bits ≤ 2 ^ k.size_bits := Nat.pow_le_pow_right (by decide) hle
    have hH : 2 ^ 2 ≤ 2 ^ (k.int_bits - 1) := Nat.pow_le_pow_right (by decide) (by omega)
    have hH' : (4 : Nat) ≤ 2 ^ (k.int_bits - 1) := hH
    have hs1 := size_t_neg_small k 1 (by decide) (by decide) (by omega)
    rcases write_frame_cases k c.param e hbytes hne with ⟨g1, g2⟩ | g
    · exact ⟨fun _ => g2, fun h => absurd g1 h⟩
    · refine ⟨fun h => ?_, fun _ => g⟩
      rw [g, hs1] at h
      omega
  refine ⟨fun h => ⟨p1 h, by rw [p1 h]; rfl⟩, p2, p3, p4, p5, p6, ?_⟩
  constructor
  · intro hok
    rcases henc : k.encode_txn k.BUF_SIZE (send_command_seq c).txn with _ | e
    · rw [p1 henc] at hok
      exact absurd hok (by simp)
    · by_cases hw : (_write_frame k c.param e).1 = e.length
      · obtain ⟨r, hr, _⟩ := read_frame_total k (_write_frame k c.param e).2 k.BUF_SIZE
        by_cases hfail : (r.ret = 0 ∨ r.ret = size_t_neg k 1 ∨ r.ret = size_t_neg k 2 ∨
            r.ret = size_t_neg k 3)
        · rw [p3 e r henc hw hr hfail] at hok
          exact absurd hok (by simp)
        · rcases hdec : k.decode_txn (r.frame.take r.ret) (send_command_seq c).txn with ⟨ok, t⟩
          cases ok
          · rw [p4 e r t henc hw hr hfail hdec] at hok
            exact absurd hok (by simp)
          · exact ⟨e, r, t, rfl, hw, hr, hfail, hdec⟩
      · rw [p2 e henc hw] at hok
        exact absurd hok (by simp)
  · rintro ⟨e, r, t, henc, hw, hr, hok, hdec⟩
    rw [p5 e r t henc hw hr hok hdec]


theorem C13_send_command_outcome_witness :
    3 ≤ env64.int_bits ∧ env64.int_bits ≤ env64.size_bits
    ∧ env64.BUF_SIZE < 2 ^ (env64.int_bits - 1)
    ∧ (env64.encode_txn env64.BUF_SIZE
          (send_command_seq (helium_send_request env64 ctx_dropped (some [1, 2]) 2)).txn
        = some [0, 0, 6]
      ∧ (_write_frame env64 (helium_send_request env64 ctx_dropped (some [1, 2]) 2).param
          [0, 0, 6]).1 = [0, 0, 6].length
      ∧ _read_frame env64
          (_write_frame env64 (helium_send_request env64 ctx_dropped (some [1, 2]) 2).param
            [0, 0, 6]).2 env64.BUF_SIZE
        = some ⟨2, { rx := rx_bytes [0x7E, 0, 2, 6, 0, 0xF9], putc_ok := [],
                     tx := [0x7E, 0, 3, 0, 0, 6, 0xF9], waits := [] }, [6, 2]⟩
      ∧ send_command env64 (helium_send_request env64 ctx_dropped (some [1, 2]) 2)
        = (send_command_status.send_command_OK,
           { send_command_seq (helium_send_request env64 ctx_dropped (some [1, 2]) 2) with
               param := { rx := rx_bytes [0x7E, 0, 2, 6, 0, 0xF9], putc_ok := [],
                          tx := [0x7E, 0, 3, 0, 0, 6, 0xF9], waits := [] },
               txn := (demo_decode_txn [6, 2]
                 (send_command_seq
                   (helium_send_request env64 ctx_dropped (some [1, 2]) 2)).txn).2 }))
    ∧ (env64.encode_txn env64.BUF_SIZE (send_command_seq (ctx_init (port_rx []))).txn
        = some [0, 0, 1]
      ∧ send_command env64 (ctx_init (port_rx []))
        = (send_command_status.send_command_ERR_COMMUNICATION,
           { send_command_seq (ctx_init (port_rx [])) with
               param := { rx := [], putc_ok := [], tx := [0x7E, 0, 3, 0, 0, 1, 0xFE],
                          waits := List.replicate SERIAL_WAIT_TIMEOUT 500 } })) :=
  ⟨by decide, by decide, by decide,
    ⟨by decide, by decide, by decide!,
      (C13_send_command_outcome env64 (helium_send_request env64 ctx_dropped (some [1, 2]) 2)
        (by decide) (by decide) (by decide)).2.2.2.2.1 [0, 0, 6]
        ⟨2, { rx := rx_bytes [0x7E, 0, 2, 6, 0, 0xF9], putc_ok := [],
              tx := [0x7E, 0, 3, 0, 0, 6, 0xF9], waits := [] }, [6, 2]⟩
        (demo_decode_txn [6, 2]
          (send_command_seq (helium_send_request env64 ctx_dropped (some [1, 2]) 2)).txn).2
        (by decide) (by decide) (by decide!) (by decide) (by decide)⟩,
    ⟨by decide,
      (C13_send_command_outcome env64 (ctx_init (port_rx []))
        (by decide) (by decide) (by decide)).2.2.1 [0, 0, 1]
        ⟨0, { rx := [], putc_ok := [], tx := [0x7E, 0, 3, 0, 0, 1, 0xFE],
              waits := List.replicate SERIAL_WAIT_TIMEOUT 500 }, []⟩
        (by decide) (by decide!) (by decide!) (Or.inl rfl)⟩⟩


/-! ## Claims about poll, sleep and baud -/

/-- C14. Poll truncation: when an attempt of the poll loop (the first of
`helium_poll`, or any later one) is answered with a `frame` of length `m` and
the caller's buffer has length `len`, `helium_poll` returns DATA, reports
`used = min(m, len)`, and the caller's buffer holds the first `min(m, len)`
bytes of the frame followed by its own bytes from index `used` on, unchanged. -/
theorem C14_poll_truncation (k : Env) (c c1 : helium_ctx) (d : List Nat) (len used retries : Nat)
    (hsc : send_command k c = (send_command_status.send_command_OK, c1))
    (htag : c1.txn.poll_res_tag = res_poll_tag.res_poll_tag_frame)
    (hbuf : d.length = len) :
    helium_poll_loop k (some d) len (some used) (retries + 1) c
        = ⟨helium_poll_status.helium_poll_OK_DATA,
           some (c1.txn.poll_res_frame.take (min c1.txn.poll_res_frame.length len)
                  ++ d.drop (min c1.txn.poll_res_frame.length len)),
           some (min c1.txn.poll_res_frame.length len), c1⟩
    ∧ (c1.txn.poll_res_frame.take (min c1.txn.poll_res_frame.length len)
          ++ d.drop (min c1.txn.poll_res_frame.length len)).take
            (min c1.txn.poll_res_frame.length len)
        = c1.txn.poll_res_frame.take (min c1.txn.poll_res_frame.length len)
    ∧ (c1.txn.poll_res_frame.take (min c1.txn.poll_res_frame.length len)
          ++ d.drop (min c1.txn.poll_res_frame.length len)).drop
            (min c1.txn.poll_res_frame.length len)
        = d.drop (min c1.txn.poll_res_frame.length len)
    ∧ (c1.txn.poll_res_frame.take (min c1.txn.poll_res_frame.length len)
          ++ d.drop (min c1.txn.poll_res_frame.length len)).length = len
    ∧ (∀ ctx, helium_poll_request ctx = c →
        (helium_poll k ctx (some d) len (some used) (retries + 1)).status
            = helium_poll_status.helium_poll_OK_DATA
        ∧ (helium_poll k ctx (some d) len (some used) (retries + 1)).used
            = some (min c1.txn.poll_res_frame.length len)
        ∧ (helium_poll k ctx none len none (retries + 1))
            = ⟨helium_poll_status.helium_poll_OK_DATA, none, none, c1⟩) := by
  have hmin : (if c1.txn.poll_res_frame.length > len then len
      else c1.txn.poll_res_frame.length) = min c1.txn.poll_res_frame.length len := by
    split
    · rw [Nat.min_eq_right (by omega)]
    · rw [Nat.min_eq_left (by omega)]
  have hloop : ∀ (data : Option (List Nat)) (u : Option Nat),
      helium_poll_loop k data len u (retries + 1) c
        = ⟨helium_poll_status.helium_poll_OK_DATA,
           data.map (fun d => c1.txn.poll_res_frame.take (min c1.txn.poll_res_frame.length len)
                  ++ d.drop (min c1.txn.poll_res_frame.length len)),
           u.map (fun _ => min c1.txn.poll_res_frame.length len), c1⟩ := by
    intro data u
    simp only [helium_poll_loop, hsc, htag, ne_eq, not_true_eq_false, if_false, hmin]
  have hlt : (c1.txn.poll_res_frame.take (min c1.txn.poll_res_frame.length len)).length
      = min c1.txn.poll_res_frame.length len := by
    rw [List.length_take]
    omega
  refine ⟨hloop (some d) (some used), ?_, ?_, ?_, ?_⟩
  · rw [List.take_append_of_le_length (by omega), List.take_of_length_le (by omega)]
  · rw [List.drop_append_of_le_length (by omega), List.drop_of_length_le (by omega)]
    rfl
  · rw [List.length_append, hlt, List.length_drop]
    omega
  · intro ctx hctx
    unfold helium_poll
    rw [hctx, hloop (some d) (some used), hloop none none]
    exact ⟨rfl, rfl, rfl⟩

theorem C14_poll_truncation_witness :
    send_command env64
        (helium_poll_request (ctx_init (port_rx (rx_bytes [0x7E, 0, 4, 7, 0x11, 0x22, 0x33, 0x92]))))
      = (send_command_status.send_command_OK,
         (send_command env64 (helium_poll_request
           (ctx_init (port_rx (rx_bytes [0x7E, 0, 4, 7, 0x11, 0x22, 0x33, 0x92]))))).2)
    ∧ (send_command env64 (helium_poll_request
          (ctx_init (port_rx (rx_bytes [0x7E, 0, 4, 7, 0x11, 0x22, 0x33, 0x92]))))).2.txn.poll_res_tag
        = res_poll_tag.res_poll_tag_frame
    ∧ [0xA0, 0xA1].length = 2
    ∧ helium_poll_loop env64 (some [0xA0, 0xA1]) 2 (some 0) (0 + 1)
        (helium_poll_request (ctx_init (port_rx (rx_bytes [0x7E, 0, 4, 7, 0x11, 0x22, 0x33, 0x92]))))
      = ⟨helium_poll_status.helium_poll_OK_DATA, some [0x11, 0x22], some 2,
          (send_command env64 (helium_poll_request
            (ctx_init (port_rx (rx_bytes [0x7E, 0, 4, 7, 0x11, 0x22, 0x33, 0x92]))))).2⟩ :=
  ⟨by decide!, by decide!, by decide,
    (C14_poll_truncation env64
      (helium_poll_request (ctx_init (port_rx (rx_bytes [0x7E, 0, 4, 7, 0x11, 0x22, 0x33, 0x92]))))
      (send_command env64 (helium_poll_request
        (ctx_init (port_rx (rx_bytes [0x7E, 0, 4, 7, 0x11, 0x22, 0x33, 0x92]))))).2
      [0xA0, 0xA1] 2 0 0 (by decide!) (by decide!) (by decide)).1⟩


/-- C15. Sleep outcome: `helium_sleep` returns COMMUNICATION when
`send_command` is not OK; otherwise NOT_CONNECTED, KEEP_AWAKE or OK according
to the response tag, and COMMUNICATION for any other tag. On OK a supplied
connection slot holds the connection descriptor of the response; on every
other outcome the slot is as the caller passed it. -/
theorem C15_sleep_outcome (k : Env) (ctx : helium_ctx) (slot : Option connection)
    (status : send_command_status) (c1 : helium_ctx)
    (hsc : send_command k (helium_sleep_request ctx) = (status, c1)) :
    (status ≠ send_command_status.send_command_OK →
      helium_sleep k ctx slot
        = (helium_sleep_status.helium_sleep_ERR_COMMUNICATION, slot, c1))
    ∧ (status = send_command_status.send_command_OK →
        (c1.txn.sleep_res_tag = res_sleep_tag.res_sleep_tag_not_connected →
          helium_sleep k ctx slot
            = (helium_sleep_status.helium_sleep_ERR_NOT_CONNECTED, slot, c1))
        ∧ (c1.txn.sleep_res_tag = res_sleep_tag.res_sleep_tag_keep_awake →
          helium_sleep k ctx slot
            = (helium_sleep_status.helium_sleep_ERR_KEEP_AWAKE, slot, c1))
        ∧ (c1.txn.sleep_res_tag = res_sleep_tag.res_sleep_tag_connection →
          helium_sleep k ctx slot
            = (helium_sleep_status.helium_sleep_OK,
               slot.map (fun _ => c1.txn.sleep_res_connection), c1))
        ∧ (∀ n, c1.txn.sleep_res_tag = res_sleep_tag.unrecognized n →
          helium_sleep k ctx slot
            = (helium_sleep_status.helium_sleep_ERR_COMMUNICATION, slot, c1)))
    ∧ ((helium_sleep k ctx slot).1 ≠ helium_sleep_status.helium_sleep_OK →
        (helium_sleep k ctx slot).2.1 = slot)
    ∧ (∀ old, slot = some old →
        (helium_sleep k ctx slot).1 = helium_sleep_status.helium_sleep_OK →
        (helium_sleep k ctx slot).2.1 = some c1.txn.sleep_res_connection) := by
  have herr : status ≠ send_command_status.send_command_OK →
      helium_sleep k ctx slot
        = (helium_sleep_status.helium_sleep_ERR_COMMUNICATION, slot, c1) := by
    intro h
    simp only [helium_sleep, hsc, ne_eq, if_pos (Ne.symm h)]
  have hok : status = send_command_status.send_command_OK →
      helium_sleep k ctx slot
        = match c1.txn.sleep_res_tag with
          | res_sleep_tag.res_sleep_tag_not_connected =>
            (helium_sleep_status.helium_sleep_ERR_NOT_CONNECTED, slot, c1)
          | res_sleep_tag.res_sleep_tag_keep_awake =>
            (helium_sleep_status.helium_sleep_ERR_KEEP_AWAKE, slot, c1)
          | res_sleep_tag.res_sleep_tag_connection =>
            (helium_sleep_status.helium_sleep_OK,
              slot.map (fun _ => c1.txn.sleep_res_connection), c1)
          | res_sleep_tag.unrecognized _ =>
            (helium_sleep_status.helium_sleep_ERR_COMMUNICATION, slot, c1) := by
    intro h
    subst h
    simp only [helium_sleep, hsc, ne_eq, not_true_eq_false, if_false]
  refine ⟨herr, ?_, ?_, ?_⟩
  · intro h
    refine ⟨?_, ?_, ?_, ?_⟩
    · intro ht
      rw [hok h, ht]
    · intro ht
      rw [hok h, ht]
    · intro ht
      rw [hok h, ht]
    · intro n ht
      rw [hok h, ht]
  · intro hne
    by_cases h : status = send_command_status.send_command_OK
    · rw [hok h] at hne ⊢
      rcases ht : c1.txn.sleep_res_tag with _ | _ | _ | n
      all_goals rw [ht] at hne
      all_goals first
        | rfl
        | exact absurd rfl hne
    · rw [herr h]
  · intro old hold hst
    by_cases h : status = send_command_status.send_command_OK
    · rw [hok h] at hst ⊢
      rcases ht : c1.txn.sleep_res_tag with _ | _ | _ | n <;> rw [ht] at hst
      · exact absurd hst (by simp)
      · exact absurd hst (by simp)
      · rw [hold]
        rfl
      · exact absurd hst (by simp)
    · rw [herr h] at hst
      exact absurd hst (by simp)


theorem C15_sleep_outcome_witness :
    (send_command env64 (helium_sleep_request
        (ctx_init (port_rx (rx_bytes [0x7E, 0, 4, 5, 2, 0xC0, 0xC1, 0x77]))))
      = (send_command_status.send_command_OK,
         (send_command env64 (helium_sleep_request
           (ctx_init (port_rx (rx_bytes [0x7E, 0, 4, 5, 2, 0xC0, 0xC1, 0x77]))))).2)
    ∧ (send_command env64 (helium_sleep_request
          (ctx_init (port_rx (rx_bytes [0x7E, 0, 4, 5, 2, 0xC0, 0xC1, 0x77]))))).2.txn.sleep_res_tag
        = res_sleep_tag.res_sleep_tag_connection
    ∧ helium_sleep env64 (ctx_init (port_rx (rx_bytes [0x7E, 0, 4, 5, 2, 0xC0, 0xC1, 0x77])))
        (some { raw := [] })
      = (helium_sleep_status.helium_sleep_OK, some { raw := [0xC0, 0xC1] },
         (send_command env64 (helium_sleep_request
           (ctx_init (port_rx (rx_bytes [0x7E, 0, 4, 5, 2, 0xC0, 0xC1, 0x77]))))).2))
    ∧ (send_command env64 (helium_sleep_request (ctx_init (port_rx (rx_bytes [0x7E, 0, 1]))))
      = (send_command_status.send_command_ERR_COMMUNICATION,
         (send_command env64 (helium_sleep_request
           (ctx_init (port_rx (rx_bytes [0x7E, 0, 1]))))).2)
    ∧ send_command_status.send_command_ERR_COMMUNICATION
        ≠ send_command_status.send_command_OK
    ∧ helium_sleep env64 (ctx_init (port_rx (rx_bytes [0x7E, 0, 1]))) (some { raw := [9] })
      = (helium_sleep_status.helium_sleep_ERR_COMMUNICATION, some { raw := [9] },
         (send_command env64 (helium_sleep_request
           (ctx_init (port_rx (rx_bytes [0x7E, 0, 1]))))).2)) :=
  ⟨⟨by decide!, by decide!,
      ((C15_sleep_outcome env64
        (ctx_init (port_rx (rx_bytes [0x7E, 0, 4, 5, 2, 0xC0, 0xC1, 0x77])))
        (some { raw := [] }) send_command_status.send_command_OK
        (send_command env64 (helium_sleep_request
          (ctx_init (port_rx (rx_bytes [0x7E, 0, 4, 5, 2, 0xC0, 0xC1, 0x77]))))).2
        (by decide!)).2.1 rfl).2.2.1 (by decide!)⟩,
    ⟨by decide!, by decide,
      (C15_sleep_outcome env64 (ctx_init (port_rx (rx_bytes [0x7E, 0, 1])))
        (some { raw := [9] }) send_command_status.send_command_ERR_COMMUNICATION
        (send_command env64 (helium_sleep_request
          (ctx_init (port_rx (rx_bytes [0x7E, 0, 1]))))).2
        (by decide!)).1 (by decide)⟩⟩

/-- C16. Baud mapping: `helium_baud` places in the request the modem rate of
the same name for each of 9600, 14400, 19200, 38400, 57600 and 115200, and
9600 for every other value; the record is tagged as a baud request. It
returns `helium_info_OK` when `send_command` is OK and
`helium_info_ERR_COMMUNICATION` otherwise. -/
theorem C16_baud_mapping (k : Env) (ctx : helium_ctx) :
    (helium_baud_request ctx enum_helium_baud.helium_baud_b9600).txn.baud_req
        = atom_baud.atom_baud_b9600
    ∧ (helium_baud_request ctx enum_helium_baud.helium_baud_b14400).txn.baud_req
        = atom_baud.atom_baud_b14400
    ∧ (helium_baud_request ctx enum_helium_baud.helium_baud_b19200).txn.baud_req
        = atom_baud.atom_baud_b19200
    ∧ (helium_baud_request ctx enum_helium_baud.helium_baud_b38400).txn.baud_req
        = atom_baud.atom_baud_b38400
    ∧ (helium_baud_request ctx enum_helium_baud.helium_baud_b57600).txn.baud_req
        = atom_baud.atom_baud_b57600
    ∧ (helium_baud_request ctx enum_helium_baud.helium_baud_b115200).txn.baud_req
        = atom_baud.atom_baud_b115200
    ∧ (∀ n, (helium_baud_request ctx (enum_helium_baud.unrecognized n)).txn.baud_req
        = atom_baud.atom_baud_b9600)
    ∧ (∀ baud, (helium_baud_request ctx baud).txn.cmd_tag = cmd_tag.cmd_tag_baud
        ∧ (helium_baud_request ctx baud).txn.baud_tag = req_res_tag.req)
    ∧ (∀ baud,
        ((send_command k (helium_baud_request ctx baud)).1
            = send_command_status.send_command_OK →
          helium_baud k ctx baud
            = (helium_info_status.helium_info_OK,
               (send_command k (helium_baud_request ctx baud)).2))
        ∧ ((send_command k (helium_baud_request ctx baud)).1
            ≠ send_command_status.send_command_OK →
          helium_baud k ctx baud
            = (helium_info_status.helium_info_ERR_COMMUNICATION,
               (send_command k (helium_baud_request ctx baud)).2))) := by
  refine ⟨rfl, rfl, rfl, rfl, rfl, rfl, fun _ => rfl, fun _ => ⟨rfl, rfl⟩, ?_⟩
  intro baud
  rcases hsc : send_command k (helium_baud_request ctx baud) with ⟨status, c1⟩
  constructor
  · intro h
    simp only at h
    subst h
    simp only [helium_baud, hsc, ne_eq, not_true_eq_false, if_false]
  · intro h
    simp only [helium_baud, hsc, ne_eq, if_pos (Ne.symm h)]

theorem C16_baud_mapping_witness :
    (send_command env64 (helium_baud_request (ctx_init (port_rx (rx_bytes [0x7E, 0, 1, 1, 0xFE])))
        enum_helium_baud.helium_baud_b57600)).1 = send_command_status.send_command_OK
    ∧ helium_baud env64 (ctx_init (port_rx (rx_bytes [0x7E, 0, 1, 1, 0xFE])))
        enum_helium_baud.helium_baud_b57600
      = (helium_info_status.helium_info_OK,
         (send_command env64 (helium_baud_request
           (ctx_init (port_rx (rx_bytes [0x7E, 0, 1, 1, 0xFE])))
           enum_helium_baud.helium_baud_b57600)).2)
    ∧ (send_command env64 (helium_baud_request (ctx_init (port_rx (rx_bytes [0x7E, 0, 1])))
        (enum_helium_baud.unrecognized 4800))).1 ≠ send_command_status.send_command_OK
    ∧ helium_baud env64 (ctx_init (port_rx (rx_bytes [0x7E, 0, 1])))
        (enum_helium_baud.unrecognized 4800)
      = (helium_info_status.helium_info_ERR_COMMUNICATION,
         (send_command env64 (helium_baud_request (ctx_init (port_rx (rx_bytes [0x7E, 0, 1])))
           (enum_helium_baud.unrecognized 4800))).2) :=
  ⟨by decide!,
    ((C16_baud_mapping env64 (ctx_init (port_rx (rx_bytes [0x7E, 0, 1, 1, 0xFE])))).2.2.2.2.2.2.2.2
      enum_helium_baud.helium_baud_b57600).1 (by decide!),
    by decide!,
    ((C16_baud_mapping env64 (ctx_init (port_rx (rx_bytes [0x7E, 0, 1])))).2.2.2.2.2.2.2.2
      (enum_helium_baud.unrecognized 4800)).2 (by decide!)⟩


/-! ## Frame reader: a silent line -/

/-- C18 fails on the source: `helium_poll` assigns the command tag and the
request tag once, before its loop, and every later attempt encodes the record
as the decoder of the previous response left it. In general the tags of the
record of the next attempt are those of the decoded response; with the small
codec, whose decoder marks what it decodes as a response, and a modem that
answers `none` twice, `helium_poll` with `retries = 2` makes two attempts, the
first with a record tagged poll and `req`, the second with a record tagged
poll and `res`. -/
theorem C18_poll_retry_encodes_response :
    (∀ (k : Env) (c : helium_ctx),
      (send_command_seq (poll_round k c)).txn.cmd_tag = (send_command k c).2.txn.cmd_tag
      ∧ (send_command_seq (poll_round k c)).txn.poll_tag = (send_command k c).2.txn.poll_tag)
    ∧ helium_poll env64
        (ctx_init (port_rx (rx_bytes [0x7E, 0, 1, 7, 0xF8, 0x7E, 0, 1, 7, 0xF8]))) none 0 none 2
      = ⟨helium_poll_status.helium_poll_OK_NO_DATA, none, none,
          (send_command env64 (poll_round env64 (helium_poll_request
            (ctx_init (port_rx (rx_bytes [0x7E, 0, 1, 7, 0xF8, 0x7E, 0, 1, 7, 0xF8])))))).2⟩
    ∧ (send_command_seq (helium_poll_request
        (ctx_init (port_rx (rx_bytes [0x7E, 0, 1, 7, 0xF8, 0x7E, 0, 1, 7, 0xF8]))))).txn.cmd_tag
      = cmd_tag.cmd_tag_poll
    ∧ (send_command_seq (helium_poll_request
        (ctx_init (port_rx (rx_bytes [0x7E, 0, 1, 7, 0xF8, 0x7E, 0, 1, 7, 0xF8]))))).txn.poll_tag
      = req_res_tag.req
    ∧ (send_command_seq (poll_round env64 (helium_poll_request
        (ctx_init (port_rx (rx_bytes [0x7E, 0, 1, 7, 0xF8, 0x7E, 0, 1, 7, 0xF8])))))).txn.cmd_tag
      = cmd_tag.cmd_tag_poll
    ∧ (send_command_seq (poll_round env64 (helium_poll_request
        (ctx_init (port_rx (rx_bytes [0x7E, 0, 1, 7, 0xF8, 0x7E, 0, 1, 7, 0xF8])))))).txn.poll_tag
      = req_res_tag.res := by
  refine ⟨fun _ _ => ⟨rfl, rfl⟩, ?_, ?_, ?_, ?_, ?_⟩ <;> decide!

/-- C19 fails on the source: a header that declares length 0 passes the
overflow test, and the first `--len` wraps, so the reader stores every byte
that follows. With a buffer of 4 bytes and the stream
`7E 00 00 01 02 03 04 05` it stores 5 bytes, the last one at index 4, and
returns 0 when the line falls silent. -/
theorem C19_zero_length_header_overflows :
    _read_frame env64 (port_rx (rx_bytes [0x7E, 0x00, 0x00, 0x01, 0x02, 0x03, 0x04, 0x05])) 4
      = some ⟨0, { port_rx [] with waits := List.replicate SERIAL_WAIT_TIMEOUT 500 },
              [0x01, 0x02, 0x03, 0x04, 0x05]⟩
    ∧ 4 < [0x01, 0x02, 0x03, 0x04, 0x05].length := by
  constructor
  · have h := read_frame_zero_header env64
      (port_rx (rx_bytes [0x7E, 0x00, 0x00, 0x01, 0x02, 0x03, 0x04, 0x05])) 4 0x01
      [0x02, 0x03, 0x04, 0x05] (by decide) (by decide) (by decide) (by decide) rfl
    rw [h]
    rfl
  · decide

/-- C20 fails on the source: `helium_send` assigns the command tag and the
request tag once, before its retry loop, and a retry encodes the record as the
decoder of the NACK response left it. In general the tags of the record of a
retry are those of the decoded response; with the small codec, whose decoder
marks what it decodes as a response, and a modem that answers NACK, the first
attempt encodes a record tagged send and `req`, the second a record tagged
send and `res`. -/
theorem C20_send_retry_encodes_response :
    (∀ (k : Env) (c : helium_ctx),
      (send_command_seq (send_command k c).2).txn.cmd_tag = (send_command k c).2.txn.cmd_tag
      ∧ (send_command_seq (send_command k c).2).txn.send_tag
          = (send_command k c).2.txn.send_tag
      ∧ (send_command_seq (send_command k c).2).txn.send_req
          = (send_command k c).2.txn.send_req)
    ∧ helium_send env64 ctx_nack3 (some [0x01, 0x02]) 2
      = (helium_send_status.helium_send_ERR_COMMUNICATION,
         (send_command env64 (send_command env64 (send_command env64
           (helium_send_request env64 ctx_nack3 (some [0x01, 0x02]) 2)).2).2).2)
    ∧ (send_command env64
        (helium_send_request env64 ctx_nack3 (some [0x01, 0x02]) 2)).2.txn.send_res
      = res_send.res_send_err_nack
    ∧ (send_command_seq
        (helium_send_request env64 ctx_nack3 (some [0x01, 0x02]) 2)).txn.send_tag
      = req_res_tag.req
    ∧ (send_command_seq (send_command env64
        (helium_send_request env64 ctx_nack3 (some [0x01, 0x02]) 2)).2).txn.cmd_tag
      = cmd_tag.cmd_tag_send
    ∧ (send_command_seq (send_command env64
        (helium_send_request env64 ctx_nack3 (some [0x01, 0x02]) 2)).2).txn.send_tag
      = req_res_tag.res := by
  refine ⟨fun _ _ => ⟨rfl, rfl, rfl⟩, ?_, ?_, ?_, ?_, ?_⟩ <;> decide!

end Helium
